import Mathlib

/-!
# Clipping analytics: the platform stats aggregation pipeline

A shallow embedding of `server.js`: the identifier extractor (`extractVideoId`),
the three platform adapters, the refresh pass (`GET /api/stats/refresh`) and the
by-clipper aggregation (`GET /api/stats/by-clipper`).

Modelling conventions.

* A counter is a JavaScript number holding a non-negative integer: a natural number
  that a double represents, or `infinityCode` for `Infinity`.  The running totals
  are added with `jsAdd`, the addition of doubles (round to nearest, ties to even),
  which is exact up to `2 ^ 53`.  A clip list is an array, of length below `2 ^ 32`,
  so the clip counts stay in the exact range.
* A JavaScript object with optional fields is a structure of `Option`s:
  `none` is an absent field.
* The network is an input: `Env` gives, for the clip processed at position `i`
  and the identifier sent, what the HTTP call of each adapter produced.
* A plain object used as a dictionary (`clipperStats`, `platforms`) is the list
  of its own properties in creation order, read through `Object.prototype`.
-/

namespace ClippingAnalytics

/-! ## Data model -/

/-- A stored clip record (`clips.json`). -/
structure Clip where
  id : String
  clipper : String
  platform : String
  url : String
  videoId : Option String
  addedAt : String
deriving DecidableEq, Repr

/-- A metrics snapshot as the adapters build it: every field may be absent, and a
counter that is present is a number holding a non-negative integer. -/
structure Stats where
  views : Option Nat
  likes : Option Nat
  comments : Option Nat
  shares : Option Nat
  error : Option String
deriving DecidableEq, Repr

/-- The object literal `{}` that `let stats = {}` starts from. -/
def emptyStats : Stats :=
  { views := none, likes := none, comments := none, shares := none, error := none }

/-- The object `{ ...clip, stats }`. -/
structure AnnotatedClip where
  clip : Clip
  stats : Stats
deriving DecidableEq, Repr

/-- The value of `x || 0` for a counter that is a number or absent. -/
def orZero (x : Option Nat) : Nat :=
  match x with
  | some n => n
  | none => 0

/-! ## Numbers -/

/-- The bound `2 ^ 53`: every integer up to it is a double. -/
def exactLimit : Nat := 9007199254740992

/-- The natural number that stands for `Infinity`: `2 ^ 1024`. -/
def infinityCode : Nat := 2 ^ 256 * 2 ^ 256 * 2 ^ 256 * 2 ^ 256

/-- The number of low bits a double cannot keep of `n`: the least `e` with
`n / 2 ^ e < 2 ^ 53`. -/
def dropCount : Nat → Nat → Nat
  | 0, _ => 0
  | fuel + 1, n => if n < exactLimit then 0 else dropCount fuel (n / 2) + 1

/-- The double nearest to the integer `n`, ties to the even significand, and
`Infinity` from `2 ^ 1024` on. -/
def roundToDouble (n : Nat) : Nat :=
  if n ≤ exactLimit then n
  else
    let e := dropCount n n
    let q := n / 2 ^ e
    let r := n % 2 ^ e
    let m := (if 2 ^ (e - 1) < r ∨ (r = 2 ^ (e - 1) ∧ q % 2 = 1) then q + 1 else q) * 2 ^ e
    if infinityCode ≤ m then infinityCode else m

/-- The value of `a + b` on two numbers holding non-negative integers. -/
def jsAdd (a b : Nat) : Nat :=
  roundToDouble (a + b)

/-! ## Identifier extractor -/

/-- The class `[a-zA-Z0-9_-]`. (`\d` is `Char.isDigit`.) -/
def isIdChar (c : Char) : Bool :=
  c.isAlphanum || c == '_' || c == '-'

/-- Matching a literal at the start of the input: the rest of the input. -/
def matchLiteral : List Char → List Char → Option (List Char)
  | [], s => some s
  | _ :: _, [] => none
  | c :: cs, d :: ds => if c = d then matchLiteral cs ds else none

/-- Matching a greedy group `(cls+)` at the start of the input: the capture and the
rest of the input.  In each of the three expressions a group is followed by the
end of the expression or by `/`, which is outside the class, so the longest run is
the only length at which the group can match. -/
def matchRun (cls : Char → Bool) (s : List Char) : Option (List Char × List Char) :=
  if s.takeWhile cls = [] then none else some (s.takeWhile cls, s.dropWhile cls)

/-- Matching a literal followed by a closing group `(cls+)`: the capture. -/
def matchTagged (literal : List Char) (cls : Char → Bool) (s : List Char) :
    Option (List Char) :=
  match matchLiteral literal s with
  | some rest =>
    match matchRun cls rest with
    | some (capture, _) => some capture
    | none => none
  | none => none

/-- The alternation `a|b`: the first alternative that matches. -/
def orElseTry {α : Type} (a b : Option α) : Option α :=
  match a with
  | some m => some m
  | none => b

/-- Function `String.prototype.match` with an expression without flags: the match
at the leftmost position where the expression matches. -/
def searchFrom {α : Type} (matchAt : List Char → Option α) : List Char → Option α
  | [] => matchAt []
  | c :: cs =>
    match matchAt (c :: cs) with
    | some m => some m
    | none => searchFrom matchAt cs

/-- The groups `match[1]` to `match[5]` of the Facebook expression. -/
structure FacebookMatch where
  g1 : Option (List Char)
  g2 : Option (List Char)
  g3 : Option (List Char)
  g4 : Option (List Char)
  g5 : Option (List Char)
deriving DecidableEq, Repr

/-- The alternative `\/(\d+)\/videos\/(\d+)` at the start of the input. -/
def matchPageVideos (s : List Char) : Option FacebookMatch :=
  match matchLiteral ['/'] s with
  | some afterSlash =>
    match matchRun Char.isDigit afterSlash with
    | some (page, afterPage) =>
      match matchTagged "/videos/".data Char.isDigit afterPage with
      | some id => some { g1 := none, g2 := none, g3 := some page, g4 := some id, g5 := none }
      | none => none
    | none => none
  | none => none

/-- The expression
`/\/videos\/(\d+)|\/posts\/(\d+)|\/(\d+)\/videos\/(\d+)|story_fbid=(\d+)/`
at the start of the input. -/
def facebookAt (s : List Char) : Option FacebookMatch :=
  orElseTry
    ((matchTagged "/videos/".data Char.isDigit s).map
      (fun id => { g1 := some id, g2 := none, g3 := none, g4 := none, g5 := none }))
    (orElseTry
      ((matchTagged "/posts/".data Char.isDigit s).map
        (fun id => { g1 := none, g2 := some id, g3 := none, g4 := none, g5 := none }))
      (orElseTry (matchPageVideos s)
        ((matchTagged "story_fbid=".data Char.isDigit s).map
          (fun id => { g1 := none, g2 := none, g3 := none, g4 := none, g5 := some id }))))

/-- The expression `/shorts\/([a-zA-Z0-9_-]+)|v=([a-zA-Z0-9_-]+)/` at the start of
the input: `match[1]` and `match[2]`. -/
def youtubeAt (s : List Char) : Option (Option (List Char) × Option (List Char)) :=
  orElseTry
    ((matchTagged "shorts/".data isIdChar s).map (fun id => (some id, none)))
    ((matchTagged "v=".data isIdChar s).map (fun id => (none, some id)))

/-- The expression `/status\/(\d+)/` at the start of the input: `match[1]`. -/
def twitterAt (s : List Char) : Option (List Char) :=
  matchTagged "status/".data Char.isDigit s

/-- The value of `a || b` on groups: `a` unless it is undefined or empty. -/
def orGroup (a b : Option (List Char)) : Option (List Char) :=
  match a with
  | some (c :: cs) => some (c :: cs)
  | _ => b

/-- Function `extractVideoId(url, platform)`; `none` is `null`. -/
def extractVideoId (url : String) (platform : String) : Option String :=
  if platform = "facebook" then
    match searchFrom facebookAt url.data with
    | some m => (orGroup (orGroup (orGroup m.g1 m.g2) m.g4) m.g5).map String.mk
    | none => none
  else if platform = "youtube" then
    match searchFrom youtubeAt url.data with
    | some m => (orGroup m.1 m.2).map String.mk
    | none => none
  else if platform = "twitter" then
    match searchFrom twitterAt url.data with
    | some id => some (String.mk id)
    | none => none
  else
    none

/-! ## Platform adapters -/

/-- What the Graph API call inside `fetchFacebookStats` produced. -/
inductive FacebookReply where
  /-- anything thrown inside the `try` block, with its `message` -/
  | threw (message : String)
  /-- a response whose `data` is falsy -/
  | noData
  /-- a response with data: the values of `engagement?.count`,
  `likes?.summary?.total_count`, `comments?.summary?.total_count`, `shares?.count` -/
  | data (engagement likes comments shares : Option Nat)
deriving DecidableEq, Repr

/-- What the videos call inside `fetchYouTubeStats` produced. -/
inductive YouTubeReply where
  /-- anything thrown inside the `try` block, with its `message` -/
  | threw (message : String)
  /-- a response whose `items` is missing or of length 0 -/
  | noItems
  /-- the values `parseInt` gives for `viewCount`, `likeCount`, `commentCount`
  of the first item (`none` for `NaN`) -/
  | statistics (viewCount likeCount commentCount : Option Nat)
deriving DecidableEq, Repr

/-- What the tweets call inside `fetchTwitterStats` produced. -/
inductive TwitterReply where
  /-- anything thrown inside the `try` block, with its `message` -/
  | threw (message : String)
  /-- a response whose `data` or `data.data` is falsy -/
  | noData
  /-- the public metrics `impression_count`, `like_count`, `reply_count`,
  `retweet_count` -/
  | metrics (impressions likes replies retweets : Option Nat)
deriving DecidableEq, Repr

/-- The value of `!credential` for an environment variable. -/
def notConfigured (credential : Option String) : Bool :=
  match credential with
  | none => true
  | some s => s == ""

/-- Function `fetchFacebookStats(postId)`. -/
def fetchFacebookStats (accessToken : Option String) (graph : String → FacebookReply)
    (postId : String) : Stats :=
  if notConfigured accessToken then
    { views := some 0, likes := some 0, comments := some 0, shares := some 0,
      error := some "Facebook API token not configured" }
  else
    match graph postId with
    | .data engagement likes comments shares =>
      { views := some (orZero engagement), likes := some (orZero likes),
        comments := some (orZero comments), shares := some (orZero shares), error := none }
    | .noData =>
      { views := some 0, likes := some 0, comments := some 0, shares := some 0,
        error := some "Post not found" }
    | .threw message =>
      { views := some 0, likes := some 0, comments := some 0, shares := some 0,
        error := some message }

/-- Function `fetchYouTubeStats(videoId)`. -/
def fetchYouTubeStats (apiKey : Option String) (videos : String → YouTubeReply)
    (videoId : String) : Stats :=
  if notConfigured apiKey then
    { views := some 0, likes := some 0, comments := some 0, shares := none,
      error := some "YouTube API key not configured" }
  else
    match videos videoId with
    | .statistics viewCount likeCount commentCount =>
      { views := some (orZero viewCount), likes := some (orZero likeCount),
        comments := some (orZero commentCount), shares := some 0, error := none }
    | .noItems =>
      { views := some 0, likes := some 0, comments := some 0, shares := some 0,
        error := some "Video not found" }
    | .threw message =>
      { views := some 0, likes := some 0, comments := some 0, shares := some 0,
        error := some message }

/-- Function `fetchTwitterStats(tweetId)`. -/
def fetchTwitterStats (bearerToken : Option String) (tweets : String → TwitterReply)
    (tweetId : String) : Stats :=
  if notConfigured bearerToken then
    { views := some 0, likes := some 0, comments := some 0, shares := some 0,
      error := some "Twitter API token not configured" }
  else
    match tweets tweetId with
    | .metrics impressions likes replies retweets =>
      { views := some (orZero impressions), likes := some (orZero likes),
        comments := some (orZero replies), shares := some (orZero retweets), error := none }
    | .noData =>
      { views := some 0, likes := some 0, comments := some 0, shares := some 0,
        error := some "Tweet not found" }
    | .threw message =>
      { views := some 0, likes := some 0, comments := some 0, shares := some 0,
        error := some message }

/-- The process environment and the network, as one request sees them: the three
credentials, and for the clip at position `i` the outcome of each adapter call. -/
structure Env where
  facebookAccessToken : Option String
  youtubeApiKey : Option String
  twitterBearerToken : Option String
  graph : Nat → String → FacebookReply
  videos : Nat → String → YouTubeReply
  tweets : Nat → String → TwitterReply

/-- An adapter invocation: which function was called, with which identifier. -/
inductive AdapterCall where
  | facebook (postId : String)
  | youtube (videoId : String)
  | twitter (tweetId : String)
deriving DecidableEq, Repr

/-- Truthiness of `clip.videoId`: present and not the empty string. -/
def truthy (v : Option String) : Bool :=
  match v with
  | some s => s != ""
  | none => false

/-- The `let stats = {}; if ... else if ...` block shared by both routes, for the
clip at position `i`: the snapshot, and the adapter invocations it made. -/
def clipStats (env : Env) (i : Nat) (clip : Clip) : Stats × List AdapterCall :=
  if clip.platform = "facebook" ∧ truthy clip.videoId = true then
    (fetchFacebookStats env.facebookAccessToken (env.graph i) (clip.videoId.getD ""),
      [AdapterCall.facebook (clip.videoId.getD "")])
  else if clip.platform = "youtube" ∧ truthy clip.videoId = true then
    (fetchYouTubeStats env.youtubeApiKey (env.videos i) (clip.videoId.getD ""),
      [AdapterCall.youtube (clip.videoId.getD "")])
  else if clip.platform = "twitter" ∧ truthy clip.videoId = true then
    (fetchTwitterStats env.twitterBearerToken (env.tweets i) (clip.videoId.getD ""),
      [AdapterCall.twitter (clip.videoId.getD "")])
  else
    (emptyStats, [])

/-! ## Refresh pass -/

/-- The loop of `GET /api/stats/refresh`: `done` is `clipsWithStats` so far. -/
def refreshLoop (env : Env) : Nat → List Clip → List AnnotatedClip → List AnnotatedClip
  | _, [], done => done
  | i, clip :: rest, done =>
    refreshLoop env (i + 1) rest (done ++ [{ clip := clip, stats := (clipStats env i clip).1 }])

/-- Route `GET /api/stats/refresh` on the clip list read from the store. -/
def refresh (env : Env) (clips : List Clip) : List AnnotatedClip :=
  refreshLoop env 0 clips []

/-! ## Plain objects used as dictionaries -/

/-- The property names every plain object inherits from `Object.prototype`. -/
def objectPrototypeNames : List String :=
  ["constructor", "__defineGetter__", "__defineSetter__", "hasOwnProperty",
   "__lookupGetter__", "__lookupSetter__", "isPrototypeOf", "propertyIsEnumerable",
   "toString", "valueOf", "__proto__", "toLocaleString"]

/-- The outcome of reading `obj[key]` on a plain object. -/
inductive Lookup (α : Type) where
  /-- an own property -/
  | own (value : α)
  /-- a member of `Object.prototype` (a function, or the prototype itself): truthy -/
  | inherited
  /-- no such property: `undefined` -/
  | undefined
deriving DecidableEq, Repr

/-- The own property `key`, if the object has it. -/
def getOwn {α : Type} : List (String × α) → String → Option α
  | [], _ => none
  | (k, v) :: rest, key => if k = key then some v else getOwn rest key

/-- Reading `obj[key]`: own properties first, then the prototype. -/
def getProperty {α : Type} (obj : List (String × α)) (key : String) : Lookup α :=
  match getOwn obj key with
  | some v => Lookup.own v
  | none => if key ∈ objectPrototypeNames then Lookup.inherited else Lookup.undefined

/-- Writing an own property: an existing one keeps its place, a new one goes last. -/
def setOwn {α : Type} : List (String × α) → String → α → List (String × α)
  | [], key, value => [(key, value)]
  | (k, v) :: rest, key, value =>
    if k = key then (key, value) :: rest else (k, v) :: setOwn rest key value

/-- The number written by a digit string. -/
def digitsValue (cs : List Char) : Nat :=
  cs.foldl (fun n c => 10 * n + (c.toNat - 48)) 0

/-- A property key that is an array index: the canonical decimal form of an
integer below `2 ^ 32 - 1`.  Such keys are enumerated first, in ascending order. -/
def arrayIndex (key : String) : Option Nat :=
  if key.data ≠ [] ∧ key.data.all Char.isDigit = true
      ∧ (key.data.head? ≠ some '0' ∨ key.data.length = 1)
      ∧ digitsValue key.data < 4294967295 then
    some (digitsValue key.data)
  else
    none

/-- Function `Object.values(obj)`: the values of the array-index keys in ascending
numeric order, then those of the other keys in creation order. -/
def objectValues {α : Type} (obj : List (String × α)) : List α :=
  ((obj.filterMap (fun e => (arrayIndex e.1).map (fun n => (n, e.2)))).insertionSort
      (fun a b => a.1 ≤ b.1)).map Prod.snd
    ++ (obj.filter (fun e => (arrayIndex e.1).isNone)).map Prod.snd

/-! ## By-clipper aggregation -/

/-- A value stored in a `platforms` object. -/
inductive Tally where
  | count (n : Nat)
  | text (s : String)
deriving DecidableEq, Repr

/-- The string an inherited member of `Object.prototype` turns into under `+`. -/
def inheritedText (name : String) : String :=
  if name = "__proto__" then "[object Object]"
  else if name = "constructor" then "function Object() \x7b [native code] \x7d"
  else "function " ++ name ++ "() \x7b [native code] \x7d"

/-- The statement `platforms[p] = (platforms[p] || 0) + 1`. -/
def countPlatform (platforms : List (String × Tally)) (p : String) : List (String × Tally) :=
  match getProperty platforms p with
  | Lookup.own (Tally.count n) => setOwn platforms p (Tally.count (n + 1))
  | Lookup.own (Tally.text s) =>
    setOwn platforms p (if s = "" then Tally.count 1 else Tally.text (s ++ "1"))
  | Lookup.inherited =>
    -- the `__proto__` setter ignores a value that is not an object
    if p = "__proto__" then platforms
    else setOwn platforms p (Tally.text (inheritedText p ++ "1"))
  | Lookup.undefined => setOwn platforms p (Tally.count 1)

/-- One entry of `clipperStats`. -/
structure Summary where
  clipper : String
  totalClips : Nat
  platforms : List (String × Tally)
  totalViews : Nat
  totalLikes : Nat
  totalComments : Nat
  totalShares : Nat
  clips : List AnnotatedClip
deriving DecidableEq, Repr

/-- The object a clipper gets on first sight (lines 235-244). -/
def newSummary (clipper : String) : Summary :=
  { clipper := clipper, totalClips := 0, platforms := [], totalViews := 0, totalLikes := 0,
    totalComments := 0, totalShares := 0, clips := [] }

/-- The updates of lines 256-269 on a clipper's summary; the four `+=` on the totals
are additions of doubles. -/
def addClip (s : Summary) (clip : Clip) (stats : Stats) : Summary :=
  { clipper := s.clipper,
    totalClips := s.totalClips + 1,
    platforms := countPlatform s.platforms clip.platform,
    totalViews := jsAdd s.totalViews (orZero stats.views),
    totalLikes := jsAdd s.totalLikes (orZero stats.likes),
    totalComments := jsAdd s.totalComments (orZero stats.comments),
    totalShares := jsAdd s.totalShares (orZero stats.shares),
    clips := s.clips ++ [{ clip := clip, stats := stats }] }

/-- What the route's `catch` receives. -/
inductive Failure where
  /-- reading a property of `undefined` -/
  | typeError
deriving DecidableEq, Repr

/-- One iteration of the loop of `GET /api/stats/by-clipper` (lines 234-272).
When `clipperStats[clip.clipper]` is an inherited member the guard of line 234 sees
a truthy value, no summary is created, and `.platforms[...]` on line 263 throws. -/
def byClipperStep (env : Env) (i : Nat) (clip : Clip) (clipperStats : List (String × Summary)) :
    Except Failure (List (String × Summary)) :=
  match getProperty clipperStats clip.clipper with
  | Lookup.undefined =>
    Except.ok (setOwn clipperStats clip.clipper
      (addClip (newSummary clip.clipper) clip (clipStats env i clip).1))
  | Lookup.own s =>
    Except.ok (setOwn clipperStats clip.clipper (addClip s clip (clipStats env i clip).1))
  | Lookup.inherited => Except.error Failure.typeError

/-- The loop of `GET /api/stats/by-clipper` from position `i` on. -/
def byClipperLoop (env : Env) :
    Nat → List Clip → List (String × Summary) → Except Failure (List (String × Summary))
  | _, [], clipperStats => Except.ok clipperStats
  | i, clip :: rest, clipperStats =>
    match byClipperStep env i clip clipperStats with
    | Except.error e => Except.error e
    | Except.ok next => byClipperLoop env (i + 1) rest next

/-- Route `GET /api/stats/by-clipper` on the clip list read from the store:
`Object.values(clipperStats).sort((a, b) => b.totalViews - a.totalViews)`, or the
exception that ends the request with status 500. -/
def byClipper (env : Env) (clips : List Clip) : Except Failure (List Summary) :=
  match byClipperLoop env 0 clips [] with
  | Except.error e => Except.error e
  | Except.ok clipperStats =>
    Except.ok ((objectValues clipperStats).insertionSort
      (fun a b => b.totalViews ≤ a.totalViews))

/-! ## Specification vocabulary -/

/-- The clips from position `i` on, each paired with the snapshot fetched for it. -/
def annotateFrom (env : Env) : Nat → List Clip → List AnnotatedClip
  | _, [] => []
  | i, clip :: rest =>
    { clip := clip, stats := (clipStats env i clip).1 } :: annotateFrom env (i + 1) rest

/-- The clip list, each clip paired with the snapshot fetched for it. -/
def annotate (env : Env) (clips : List Clip) : List AnnotatedClip :=
  annotateFrom env 0 clips

/-- The distinct names of a list, in order of first appearance. -/
def firstSeen : List String → List String
  | [] => []
  | x :: xs => x :: (firstSeen xs).filter (fun y => decide (y ≠ x))

/-- The summary of clipper `k` over a list of annotated clips: the clips of `k`
folded in, in list order, from the fresh summary. -/
def summarize (k : String) (anns : List AnnotatedClip) : Summary :=
  (anns.filter (fun a => decide (a.clip.clipper = k))).foldl
    (fun s a => addClip s a.clip a.stats) (newSummary k)

/-- The accumulator expected after a list of annotated clips. -/
def table (anns : List AnnotatedClip) : List (String × Summary) :=
  (firstSeen (anns.map (fun a => a.clip.clipper))).map (fun k => (k, summarize k anns))

/-! ## Scenarios -/

/-- An environment with only the YouTube key configured, in which video `v1` has
100 views, 10 likes, 1 comment and video `v2` has 50 views, 5 likes, 0 comments. -/
def scenarioEnv : Env :=
  { facebookAccessToken := none
    youtubeApiKey := some "key"
    twitterBearerToken := none
    graph := fun _ _ => FacebookReply.noData
    videos := fun _ videoId =>
      if videoId = "v1" then YouTubeReply.statistics (some 100) (some 10) (some 1)
      else if videoId = "v2" then YouTubeReply.statistics (some 50) (some 5) (some 0)
      else YouTubeReply.noItems
    tweets := fun _ _ => TwitterReply.noData }

/-- A clip record with the given clipper, platform and identifier. -/
def clipOf (clipper platform : String) (videoId : Option String) : Clip :=
  { id := "1", clipper := clipper, platform := platform, url := "", videoId := videoId,
    addedAt := "" }

/-- The two-clip list of the ranking scenario, in the order B then A. -/
def scenarioClips : List Clip :=
  [clipOf "B" "youtube" (some "v2"), clipOf "A" "youtube" (some "v1")]

/-- The summary of clipper A in the ranking scenario. -/
def scenarioSummaryA : Summary :=
  { clipper := "A", totalClips := 1, platforms := [("youtube", Tally.count 1)],
    totalViews := 100, totalLikes := 10, totalComments := 1, totalShares := 0,
    clips := [{ clip := clipOf "A" "youtube" (some "v1"),
                stats := { views := some 100, likes := some 10, comments := some 1,
                           shares := some 0, error := none } }] }

/-- The summary of clipper B in the ranking scenario. -/
def scenarioSummaryB : Summary :=
  { clipper := "B", totalClips := 1, platforms := [("youtube", Tally.count 1)],
    totalViews := 50, totalLikes := 5, totalComments := 0, totalShares := 0,
    clips := [{ clip := clipOf "B" "youtube" (some "v2"),
                stats := { views := some 50, likes := some 5, comments := some 0,
                           shares := some 0, error := none } }] }

/-- The tie rule as the specification words it: of two summaries of distinct
clippers with the same `totalViews`, the one whose clipper appears first in the
input comes first in the answer. -/
def TiesKeepFirstSeenOrder (env : Env) (clips : List Clip) : Prop :=
  ∀ out : List Summary, byClipper env clips = Except.ok out →
    ∀ sa ∈ out, ∀ sb ∈ out, sa.clipper ≠ sb.clipper → sa.totalViews = sb.totalViews →
      List.indexOf sa.clipper (clips.map Clip.clipper)
        < List.indexOf sb.clipper (clips.map Clip.clipper) →
      List.Sublist [sa, sb] out

/-- Two clips without identifier, of the clippers named `10` and `2`, in that order. -/
def numericNameClips : List Clip :=
  [clipOf "10" "youtube" none, clipOf "2" "youtube" none]

/-- A summary holding one clip without identifier, with the given `platforms`. -/
def oneClipSummary (clipper platform : String) (platforms : List (String × Tally)) : Summary :=
  { clipper := clipper, totalClips := 1, platforms := platforms,
    totalViews := 0, totalLikes := 0, totalComments := 0, totalShares := 0,
    clips := [{ clip := clipOf clipper platform none, stats := emptyStats }] }

/-- The summary of a clipper whose one clip, on YouTube, has no identifier. -/
def idlessSummary (clipper : String) : Summary :=
  oneClipSummary clipper "youtube" [("youtube", Tally.count 1)]

/-- Two clips without identifier, of the clippers bob and amy, in that order. -/
def plainNameClips : List Clip :=
  [clipOf "bob" "youtube" none, clipOf "amy" "youtube" none]

/-- The snapshot claim as the specification words it, for a clip that is not
fetched: all four counters are 0 and there is no `error`. -/
def ZeroedWithoutError (stats : Stats) : Prop :=
  stats.views = some 0 ∧ stats.likes = some 0 ∧ stats.comments = some 0
    ∧ stats.shares = some 0 ∧ stats.error = none

/-- The error claim as the specification words it: a snapshot with `error` present
has all four counters present and equal to 0. -/
def ErrorMeansZeroed (stats : Stats) : Prop :=
  stats.error ≠ none →
    stats.views = some 0 ∧ stats.likes = some 0 ∧ stats.comments = some 0
      ∧ stats.shares = some 0

/-- The literals that introduce an identifier in the patterns of a platform. -/
def idMarkers (platform : String) : List (List Char) :=
  if platform = "facebook" then ["/videos/".data, "/posts/".data, "story_fbid=".data]
  else if platform = "youtube" then ["shorts/".data, "v=".data]
  else if platform = "twitter" then ["status/".data]
  else []

/-- The characters an identifier of a platform is made of. -/
def idClass (platform : String) : Char → Bool :=
  if platform = "youtube" then isIdChar else Char.isDigit

/-- An identifier pattern starts at the head of `s`: one of the platform's markers
followed by a character of the platform's class. -/
def idStartsAt (platform : String) (s : List Char) : Bool :=
  (idMarkers platform).any (fun m =>
    m.isPrefixOf s && (match s.drop m.length with
      | c :: _ => idClass platform c
      | [] => false))

/-- No identifier pattern starts at a position inside `pre`, read in `pre ++ tail`. -/
def noIdBefore (platform : String) : List Char → List Char → Bool
  | [], _ => true
  | c :: pre, tail => !idStartsAt platform (c :: pre ++ tail) && noIdBefore platform pre tail

/-- The additivity claim as the specification words it: every total of every
summary is the exact sum of the counter, absent counting as 0, over the clips of
the summary's clipper. -/
def TotalsAreExactSums (env : Env) (clips : List Clip) : Prop :=
  ∀ out : List Summary, byClipper env clips = Except.ok out → ∀ s ∈ out,
    s.totalViews
        = (((annotate env clips).filter (fun a => decide (a.clip.clipper = s.clipper))).map
            (fun a => orZero a.stats.views)).sum
    ∧ s.totalLikes
        = (((annotate env clips).filter (fun a => decide (a.clip.clipper = s.clipper))).map
            (fun a => orZero a.stats.likes)).sum
    ∧ s.totalComments
        = (((annotate env clips).filter (fun a => decide (a.clip.clipper = s.clipper))).map
            (fun a => orZero a.stats.comments)).sum
    ∧ s.totalShares
        = (((annotate env clips).filter (fun a => decide (a.clip.clipper = s.clipper))).map
            (fun a => orZero a.stats.shares)).sum

/-- An environment with only the Twitter token configured, in which tweet `t1` has
`2 ^ 53` impressions and tweet `t2` has 1. -/
def largeCountEnv : Env :=
  { facebookAccessToken := none
    youtubeApiKey := none
    twitterBearerToken := some "token"
    graph := fun _ _ => FacebookReply.noData
    videos := fun _ _ => YouTubeReply.noItems
    tweets := fun _ tweetId =>
      if tweetId = "t1" then TwitterReply.metrics (some 9007199254740992) none none none
      else if tweetId = "t2" then TwitterReply.metrics (some 1) none none none
      else TwitterReply.noData }

/-- Two Twitter clips of clipper A, on the tweets `t1` and `t2`. -/
def largeCountClips : List Clip :=
  [clipOf "A" "twitter" (some "t1"), clipOf "A" "twitter" (some "t2")]

/-- The summary of clipper A over `largeCountClips`. -/
def largeCountSummary : Summary :=
  { clipper := "A", totalClips := 2, platforms := [("twitter", Tally.count 2)],
    totalViews := 9007199254740992, totalLikes := 0, totalComments := 0, totalShares := 0,
    clips := [{ clip := clipOf "A" "twitter" (some "t1"),
                stats := { views := some 9007199254740992, likes := some 0,
                           comments := some 0, shares := some 0, error := none } },
              { clip := clipOf "A" "twitter" (some "t2"),
                stats := { views := some 1, likes := some 0, comments := some 0,
                           shares := some 0, error := none } }] }

/-- The extraction claim as the specification words it, with the identifier
characters of the three expressions: wherever a marker of the platform is followed
by a whole run `id` of identifier characters, `extractVideoId` returns `id`. -/
def ReturnsIdOfEveryOccurrence (platform : String) (url : List Char) : Prop :=
  ∀ pre marker id rest : List Char, url = pre ++ marker ++ id ++ rest →
    marker ∈ idMarkers platform → id ≠ [] →
    (∀ c ∈ id, idClass platform c = true) → (∀ c ∈ rest.head?, idClass platform c = false) →
    extractVideoId (String.mk url) platform = some (String.mk id)

/-! ## Lemmas: names in order of first appearance -/

theorem mem_firstSeen {a : String} {l : List String} : a ∈ firstSeen l ↔ a ∈ l := by
  induction l with
  | nil => simp [firstSeen]
  | cons x xs ih =>
    simp only [firstSeen, List.mem_cons, List.mem_filter, ih, decide_eq_true_eq]
    by_cases h : a = x <;> simp [h]

theorem nodup_firstSeen (l : List String) : (firstSeen l).Nodup := by
  induction l with
  | nil => simp [firstSeen]
  | cons x xs ih =>
    simp only [firstSeen, List.nodup_cons, List.mem_filter, decide_eq_true_eq]
    exact ⟨fun h => h.2 rfl, ih.filter _⟩

theorem firstSeen_append_singleton (l : List String) (x : String) :
    firstSeen (l ++ [x]) = if x ∈ l then firstSeen l else firstSeen l ++ [x] := by
  induction l with
  | nil => simp [firstSeen]
  | cons y ys ih =>
    rw [List.cons_append, firstSeen, firstSeen, ih]
    by_cases hxy : x = y
    · subst hxy
      by_cases hx : x ∈ ys <;> simp [hx, List.filter_append]
    · by_cases hx : x ∈ ys <;> simp [hx, hxy, List.filter_append]

/-! ## Lemmas: own properties -/

theorem getOwn_map {α : Type} (f : String → α) (ks : List String) (k : String) :
    getOwn (ks.map (fun j => (j, f j))) k = if k ∈ ks then some (f k) else none := by
  induction ks with
  | nil => simp [getOwn]
  | cons j js ih =>
    simp only [List.map_cons, getOwn, ih, List.mem_cons]
    by_cases h : j = k
    · subst h; simp
    · have h2 : ¬ k = j := fun e => h e.symm
      simp [h, h2]

theorem setOwn_map_of_not_mem {α : Type} (f : String → α) (ks : List String) (k : String)
    (v : α) (hk : k ∉ ks) :
    setOwn (ks.map (fun j => (j, f j))) k v = ks.map (fun j => (j, f j)) ++ [(k, v)] := by
  induction ks with
  | nil => simp [setOwn]
  | cons j js ih =>
    have hj : ¬ j = k := fun e => hk (by simp [e])
    have hjs : k ∉ js := fun e => hk (by simp [e])
    simp [setOwn, hj, ih hjs]

theorem setOwn_map_of_mem {α : Type} (f : String → α) (ks : List String) (k : String)
    (v : α) (hnd : ks.Nodup) (hk : k ∈ ks) :
    setOwn (ks.map (fun j => (j, f j))) k v
      = ks.map (fun j => (j, if j = k then v else f j)) := by
  induction ks with
  | nil => simp at hk
  | cons j js ih =>
    rw [List.nodup_cons] at hnd
    by_cases h : j = k
    · subst h
      have : ∀ i ∈ js, ¬ i = j := fun i hi e => hnd.1 (e ▸ hi)
      simp only [List.map_cons, setOwn, if_true, List.cons.injEq, true_and]
      apply List.map_congr_left
      intro i hi
      simp [this i hi]
    · have hk2 : k ∈ js := by
        rcases List.mem_cons.1 hk with e | e
        · exact absurd e.symm h
        · exact e
      simp [setOwn, h, ih hnd.2 hk2]

/-! ## Lemmas: the accumulator of the by-clipper loop -/

theorem summarize_append_singleton (k : String) (anns : List AnnotatedClip)
    (a : AnnotatedClip) :
    summarize k (anns ++ [a])
      = if a.clip.clipper = k then addClip (summarize k anns) a.clip a.stats
        else summarize k anns := by
  unfold summarize
  by_cases h : a.clip.clipper = k <;> simp [List.filter_append, List.foldl_append, h]

theorem summarize_of_not_mem (k : String) (anns : List AnnotatedClip)
    (hk : k ∉ anns.map (fun a => a.clip.clipper)) : summarize k anns = newSummary k := by
  unfold summarize
  have : anns.filter (fun a => decide (a.clip.clipper = k)) = [] := by
    rw [List.filter_eq_nil_iff]
    intro a ha
    simp only [decide_eq_true_eq]
    intro e
    exact hk (List.mem_map.2 ⟨a, ha, e⟩)
  rw [this]
  rfl

theorem table_append_singleton (anns : List AnnotatedClip) (a : AnnotatedClip) :
    table (anns ++ [a])
      = if a.clip.clipper ∈ anns.map (fun b => b.clip.clipper) then
          (firstSeen (anns.map (fun b => b.clip.clipper))).map
            (fun j => (j, if j = a.clip.clipper
              then addClip (summarize a.clip.clipper anns) a.clip a.stats
              else summarize j anns))
        else
          table anns ++ [(a.clip.clipper, addClip (newSummary a.clip.clipper) a.clip a.stats)] := by
  unfold table
  rw [List.map_append, List.map_singleton, firstSeen_append_singleton]
  by_cases hk : a.clip.clipper ∈ anns.map (fun b => b.clip.clipper)
  · rw [if_pos hk, if_pos hk]
    apply List.map_congr_left
    intro j _
    rw [summarize_append_singleton]
    by_cases hj : j = a.clip.clipper
    · subst hj; simp
    · have hj2 : ¬ a.clip.clipper = j := fun e => hj e.symm
      simp [hj, hj2]
  · rw [if_neg hk, if_neg hk, List.map_append, List.map_singleton]
    congr 1
    · apply List.map_congr_left
      intro j hj
      rw [summarize_append_singleton]
      have hj2 : ¬ a.clip.clipper = j := fun e => hk (e ▸ mem_firstSeen.1 hj)
      simp [hj2]
    · rw [summarize_append_singleton, if_pos rfl, summarize_of_not_mem _ _ hk]

theorem getOwn_table (anns : List AnnotatedClip) (k : String) :
    getOwn (table anns) k
      = if k ∈ anns.map (fun b => b.clip.clipper) then some (summarize k anns) else none := by
  unfold table
  rw [getOwn_map]
  by_cases h : k ∈ anns.map (fun b => b.clip.clipper)
  · rw [if_pos h, if_pos (mem_firstSeen.2 h)]
  · rw [if_neg h, if_neg (fun e => h (mem_firstSeen.1 e))]

theorem byClipperStep_table (env : Env) (i : Nat) (clip : Clip) (anns : List AnnotatedClip)
    (hk : clip.clipper ∉ objectPrototypeNames) :
    byClipperStep env i clip (table anns)
      = Except.ok (table (anns ++ [{ clip := clip, stats := (clipStats env i clip).1 }])) := by
  unfold byClipperStep getProperty
  rw [getOwn_table, table_append_singleton]
  by_cases h : clip.clipper ∈ anns.map (fun b => b.clip.clipper)
  · simp only [if_pos h]
    unfold table
    rw [setOwn_map_of_mem _ _ _ _ (nodup_firstSeen _) (mem_firstSeen.2 h)]
  · simp only [if_neg h, if_neg hk]
    unfold table
    rw [setOwn_map_of_not_mem _ _ _ _ (fun e => h (mem_firstSeen.1 e))]

theorem byClipperStep_inherited (env : Env) (i : Nat) (clip : Clip) (anns : List AnnotatedClip)
    (hanns : ∀ a ∈ anns, a.clip.clipper ∉ objectPrototypeNames)
    (hk : clip.clipper ∈ objectPrototypeNames) :
    byClipperStep env i clip (table anns) = Except.error Failure.typeError := by
  unfold byClipperStep getProperty
  rw [getOwn_table]
  have h : clip.clipper ∉ anns.map (fun b => b.clip.clipper) := by
    intro e
    obtain ⟨a, ha, hae⟩ := List.mem_map.1 e
    exact hanns a ha (hae ▸ hk)
  simp only [if_neg h, if_pos hk]

theorem byClipperLoop_table (env : Env) (clips : List Clip) :
    ∀ (i : Nat) (anns : List AnnotatedClip),
      (∀ c ∈ clips, c.clipper ∉ objectPrototypeNames) →
      byClipperLoop env i clips (table anns)
        = Except.ok (table (anns ++ annotateFrom env i clips)) := by
  induction clips with
  | nil => intro i anns _; simp [byClipperLoop, annotateFrom]
  | cons c cs ih =>
    intro i anns h
    have hc : c.clipper ∉ objectPrototypeNames := h c (List.mem_cons_self _ _)
    have hcs : ∀ d ∈ cs, d.clipper ∉ objectPrototypeNames :=
      fun d hd => h d (List.mem_cons_of_mem _ hd)
    simp only [byClipperLoop, byClipperStep_table env i c anns hc, annotateFrom]
    rw [ih (i + 1) _ hcs, List.append_assoc, List.singleton_append]

theorem byClipperLoop_inherited (env : Env) (clips : List Clip) :
    ∀ (i : Nat) (anns : List AnnotatedClip),
      (∀ a ∈ anns, a.clip.clipper ∉ objectPrototypeNames) →
      (∃ c ∈ clips, c.clipper ∈ objectPrototypeNames) →
      byClipperLoop env i clips (table anns) = Except.error Failure.typeError := by
  induction clips with
  | nil => intro i anns _ h; obtain ⟨c, hc, _⟩ := h; simp at hc
  | cons c cs ih =>
    intro i anns hanns h
    by_cases hc : c.clipper ∈ objectPrototypeNames
    · simp only [byClipperLoop, byClipperStep_inherited env i c anns hanns hc]
    · simp only [byClipperLoop, byClipperStep_table env i c anns hc]
      apply ih
      · intro a ha
        rcases List.mem_append.1 ha with ha | ha
        · exact hanns a ha
        · rw [List.mem_singleton] at ha
          subst ha
          exact hc
      · obtain ⟨d, hd, hdp⟩ := h
        rcases List.mem_cons.1 hd with e | e
        · subst e; exact absurd hdp hc
        · exact ⟨d, e, hdp⟩

/-- The by-clipper route on a clip list with no clipper named like a member of
`Object.prototype`: the expected table, enumerated and sorted. -/
theorem byClipper_of_plain_names (env : Env) (clips : List Clip)
    (h : ∀ c ∈ clips, c.clipper ∉ objectPrototypeNames) :
    byClipper env clips
      = Except.ok ((objectValues (table (annotate env clips))).insertionSort
          (fun a b => b.totalViews ≤ a.totalViews)) := by
  have := byClipperLoop_table env clips 0 [] h
  unfold byClipper annotate
  have e : table [] = [] := rfl
  rw [e] at this
  rw [this]
  simp

/-- The by-clipper route on a clip list in which some clipper is named like a
member of `Object.prototype`: the request ends in the `catch`. -/
theorem byClipper_of_inherited_name (env : Env) (clips : List Clip)
    (h : ∃ c ∈ clips, c.clipper ∈ objectPrototypeNames) :
    byClipper env clips = Except.error Failure.typeError := by
  have := byClipperLoop_inherited env clips 0 [] (by simp) h
  unfold byClipper
  have e : table [] = [] := rfl
  rw [e] at this
  rw [this]

/-- Whenever the by-clipper route answers, the answer is the expected table,
enumerated and sorted, and no clipper is named like a member of `Object.prototype`. -/
theorem byClipper_ok (env : Env) (clips : List Clip) (out : List Summary)
    (h : byClipper env clips = Except.ok out) :
    (∀ c ∈ clips, c.clipper ∉ objectPrototypeNames) ∧
    out = (objectValues (table (annotate env clips))).insertionSort
          (fun a b => b.totalViews ≤ a.totalViews) := by
  by_cases hp : ∀ c ∈ clips, c.clipper ∉ objectPrototypeNames
  · rw [byClipper_of_plain_names env clips hp] at h
    exact ⟨hp, (Except.ok.inj h).symm⟩
  · have hp2 : ∃ c ∈ clips, c.clipper ∈ objectPrototypeNames := by
      by_contra hn
      apply hp
      intro c hc hcp
      exact hn ⟨c, hc, hcp⟩
    rw [byClipper_of_inherited_name env clips hp2] at h
    cases h

/-! ## Lemmas: what a summary holds -/

theorem jsAdd_exact (a b : Nat) (h : a + b ≤ exactLimit) : jsAdd a b = a + b := by
  unfold jsAdd roundToDouble
  rw [if_pos h]

theorem foldl_jsAdd_exact (l : List Nat) :
    ∀ a : Nat, a + l.sum ≤ exactLimit → l.foldl jsAdd a = a + l.sum := by
  induction l with
  | nil => intro a _; simp
  | cons x xs ih =>
    intro a h
    rw [List.sum_cons] at h
    rw [List.foldl_cons, jsAdd_exact a x (by omega), ih (a + x) (by omega), List.sum_cons]
    omega

theorem foldl_addClip (l : List AnnotatedClip) :
    ∀ s : Summary,
      let t := l.foldl (fun s a => addClip s a.clip a.stats) s
      t.clipper = s.clipper ∧ t.clips = s.clips ++ l ∧ t.totalClips = s.totalClips + l.length
      ∧ t.totalViews = (l.map (fun a => orZero a.stats.views)).foldl jsAdd s.totalViews
      ∧ t.totalLikes = (l.map (fun a => orZero a.stats.likes)).foldl jsAdd s.totalLikes
      ∧ t.totalComments
          = (l.map (fun a => orZero a.stats.comments)).foldl jsAdd s.totalComments
      ∧ t.totalShares = (l.map (fun a => orZero a.stats.shares)).foldl jsAdd s.totalShares
      ∧ t.platforms = (l.map (fun a => a.clip.platform)).foldl countPlatform s.platforms := by
  induction l with
  | nil => intro s; simp
  | cons a as ih =>
    intro s
    have h := ih (addClip s a.clip a.stats)
    simp only [List.foldl_cons, List.map_cons, List.length_cons] at h ⊢
    obtain ⟨h1, h2, h3, h4, h5, h6, h7, h8⟩ := h
    refine ⟨?_, ?_, ?_, ?_, ?_, ?_, ?_, ?_⟩
    · rw [h1]; rfl
    · rw [h2]; simp [addClip]
    · rw [h3]; simp only [addClip]; omega
    · rw [h4]; rfl
    · rw [h5]; rfl
    · rw [h6]; rfl
    · rw [h7]; rfl
    · rw [h8]; rfl

/-- The fields of the summary of clipper `k` over an annotated list. -/
theorem summarize_fields (k : String) (anns : List AnnotatedClip) :
    (summarize k anns).clipper = k
    ∧ (summarize k anns).clips = anns.filter (fun a => decide (a.clip.clipper = k))
    ∧ (summarize k anns).totalClips
        = (anns.filter (fun a => decide (a.clip.clipper = k))).length
    ∧ (summarize k anns).totalViews
        = ((anns.filter (fun a => decide (a.clip.clipper = k))).map
            (fun a => orZero a.stats.views)).foldl jsAdd 0
    ∧ (summarize k anns).totalLikes
        = ((anns.filter (fun a => decide (a.clip.clipper = k))).map
            (fun a => orZero a.stats.likes)).foldl jsAdd 0
    ∧ (summarize k anns).totalComments
        = ((anns.filter (fun a => decide (a.clip.clipper = k))).map
            (fun a => orZero a.stats.comments)).foldl jsAdd 0
    ∧ (summarize k anns).totalShares
        = ((anns.filter (fun a => decide (a.clip.clipper = k))).map
            (fun a => orZero a.stats.shares)).foldl jsAdd 0
    ∧ (summarize k anns).platforms
        = ((anns.filter (fun a => decide (a.clip.clipper = k))).map
            (fun a => a.clip.platform)).foldl countPlatform [] := by
  have h := foldl_addClip (anns.filter (fun a => decide (a.clip.clipper = k))) (newSummary k)
  simp only [newSummary, List.nil_append, Nat.zero_add] at h
  exact h

/-! ## Lemmas: enumeration and sorting -/

theorem objectValues_perm {α : Type} (obj : List (String × α)) :
    (objectValues obj).Perm (obj.map Prod.snd) := by
  unfold objectValues
  refine List.Perm.trans (List.Perm.append_right _
    ((List.perm_insertionSort _ _).map Prod.snd)) ?_
  induction obj with
  | nil => simp
  | cons e es ih =>
    cases hi : arrayIndex e.1 with
    | none =>
      simp only [List.filterMap_cons, hi, Option.map_none', List.filter_cons, Option.isNone_none,
        if_true, List.map_cons]
      exact List.perm_middle.trans (List.Perm.cons _ ih)
    | some n =>
      simp only [List.filterMap_cons, hi, Option.map_some', List.filter_cons,
        Option.isNone_some, List.map_cons, List.cons_append]
      exact List.Perm.cons _ ih

theorem annotateFrom_map_clipper (env : Env) (clips : List Clip) :
    ∀ i : Nat, (annotateFrom env i clips).map (fun a => a.clip.clipper)
      = clips.map Clip.clipper := by
  induction clips with
  | nil => intro i; rfl
  | cons c cs ih => intro i; simp [annotateFrom, ih (i + 1)]

/-- The summaries the route answers with are, up to order, the summaries of the
distinct clippers. -/
theorem byClipper_perm (env : Env) (clips : List Clip) (out : List Summary)
    (h : byClipper env clips = Except.ok out) :
    out.Perm ((firstSeen (clips.map Clip.clipper)).map
      (fun k => summarize k (annotate env clips))) := by
  obtain ⟨_, hout⟩ := byClipper_ok env clips out h
  rw [hout]
  refine (List.perm_insertionSort _ _).trans ((objectValues_perm _).trans ?_)
  unfold table
  rw [List.map_map]
  unfold annotate
  rw [annotateFrom_map_clipper env clips 0]
  exact List.Perm.of_eq rfl

theorem annotateFrom_map_clip (env : Env) (clips : List Clip) :
    ∀ i : Nat, (annotateFrom env i clips).map AnnotatedClip.clip = clips := by
  induction clips with
  | nil => intro i; rfl
  | cons c cs ih => intro i; simp [annotateFrom, ih (i + 1)]

/-- Every summary in the answer is the summary of its own clipper, who has a clip. -/
theorem byClipper_mem (env : Env) (clips : List Clip) (out : List Summary)
    (h : byClipper env clips = Except.ok out) (s : Summary) (hs : s ∈ out) :
    s.clipper ∈ clips.map Clip.clipper ∧ s = summarize s.clipper (annotate env clips) := by
  have hp := (byClipper_perm env clips out h).mem_iff.1 hs
  obtain ⟨k, hk, rfl⟩ := List.mem_map.1 hp
  rw [(summarize_fields k _).1]
  exact ⟨mem_firstSeen.1 hk, rfl⟩

/-! ## Lemmas: the refresh pass -/

theorem refreshLoop_eq (env : Env) (clips : List Clip) :
    ∀ (i : Nat) (done : List AnnotatedClip),
      refreshLoop env i clips done = done ++ annotateFrom env i clips := by
  induction clips with
  | nil => intro i done; simp [refreshLoop, annotateFrom]
  | cons c cs ih => intro i done; simp [refreshLoop, annotateFrom, ih (i + 1)]

theorem refresh_eq_annotate (env : Env) (clips : List Clip) :
    refresh env clips = annotate env clips := by
  unfold refresh annotate
  rw [refreshLoop_eq]
  rfl

theorem annotateFrom_getElem? (env : Env) (clips : List Clip) :
    ∀ (j i : Nat), (annotateFrom env j clips)[i]?
      = (clips[i]?).map (fun c => { clip := c, stats := (clipStats env (j + i) c).1 }) := by
  induction clips with
  | nil => intro j i; simp [annotateFrom]
  | cons c cs ih =>
    intro j i
    cases i with
    | zero => simp [annotateFrom]
    | succ n =>
      simp only [annotateFrom, List.getElem?_cons_succ, ih (j + 1) n]
      have : j + 1 + n = j + (n + 1) := by omega
      rw [this]

/-! ## Lemmas: the clips of all summaries -/

theorem flatten_filter_perm (ks : List String) :
    ∀ anns : List AnnotatedClip, ks.Nodup → (∀ a ∈ anns, a.clip.clipper ∈ ks) →
      ((ks.map (fun k => anns.filter (fun a => decide (a.clip.clipper = k)))).flatten).Perm
        anns := by
  induction ks with
  | nil =>
    intro anns _ h
    cases anns with
    | nil => simp
    | cons a as => exact absurd (h a (List.mem_cons_self _ _)) (List.not_mem_nil _)
  | cons k ks ih =>
    intro anns hnd h
    rw [List.nodup_cons] at hnd
    have hrest : ∀ a ∈ anns.filter (fun a => !decide (a.clip.clipper = k)),
        a.clip.clipper ∈ ks := by
      intro a ha
      rw [List.mem_filter] at ha
      have hne : ¬ a.clip.clipper = k := by simpa using ha.2
      rcases List.mem_cons.1 (h a ha.1) with e | e
      · exact absurd e hne
      · exact e
    have hih := ih (anns.filter (fun a => !decide (a.clip.clipper = k))) hnd.2 hrest
    have hmap : ks.map (fun j => anns.filter (fun a => decide (a.clip.clipper = j)))
        = ks.map (fun j => (anns.filter (fun a => !decide (a.clip.clipper = k))).filter
            (fun a => decide (a.clip.clipper = j))) := by
      apply List.map_congr_left
      intro j hj
      rw [List.filter_filter]
      apply List.filter_congr
      intro a _
      have hjk : ¬ j = k := fun e => hnd.1 (e ▸ hj)
      by_cases haj : a.clip.clipper = j
      · have : ¬ a.clip.clipper = k := fun e => hjk (haj ▸ e)
        simp [haj, hjk]
      · simp [haj]
    rw [List.map_cons, List.flatten_cons, hmap]
    exact (List.Perm.append_left _ hih).trans (List.filter_append_perm _ _)

/-! ## Lemmas: the order of ties -/

theorem pair_sublist_firstSeen (a b : String) (l : List String)
    (hlt : List.indexOf a l < List.indexOf b l) (hb : b ∈ l) :
    List.Sublist [a, b] (firstSeen l) := by
  induction l with
  | nil => simp at hb
  | cons x xs ih =>
    have hab : a ≠ b := fun e => by subst e; exact Nat.lt_irrefl _ hlt
    rw [List.indexOf_cons, List.indexOf_cons] at hlt
    by_cases hxa : x = a
    · subst hxa
      have hbxs : b ∈ xs := by
        rcases List.mem_cons.1 hb with e | e
        · exact absurd e.symm hab
        · exact e
      have hbf : b ∈ (firstSeen xs).filter (fun y => decide (y ≠ x)) := by
        rw [List.mem_filter]
        exact ⟨mem_firstSeen.2 hbxs, by simpa using fun e => hab e.symm⟩
      exact (List.singleton_sublist.2 hbf).cons₂ x
    · by_cases hxb : x = b
      · subst hxb
        simp [hxa] at hlt
      · have hbxs : b ∈ xs := by
          rcases List.mem_cons.1 hb with e | e
          · exact absurd e.symm hxb
          · exact e
        have e1 : (x == a) = false := by simpa using hxa
        have e2 : (x == b) = false := by simpa using hxb
        rw [e1, e2] at hlt
        have hlt2 : List.indexOf a xs < List.indexOf b xs := by
          simpa using hlt
        have hsub := (ih hlt2 hbxs).filter (fun y => decide (y ≠ x))
        have hfil : [a, b].filter (fun y => decide (y ≠ x)) = [a, b] := by
          have h1 : ¬ a = x := fun e => hxa e.symm
          have h2 : ¬ b = x := fun e => hxb e.symm
          simp [List.filter_cons, h1, h2]
        rw [hfil] at hsub
        exact hsub.cons x

theorem pair_sublist_of_keys_lt {α : Type} (l : List (Nat × α)) (x y : Nat × α)
    (hs : l.Pairwise (fun a b => a.1 ≤ b.1)) (hx : x ∈ l) (hy : y ∈ l) (hlt : x.1 < y.1) :
    List.Sublist [x, y] l := by
  induction l with
  | nil => simp at hx
  | cons z t ih =>
    rw [List.pairwise_cons] at hs
    rcases List.mem_cons.1 hx with ex | hxt
    · subst ex
      rcases List.mem_cons.1 hy with ey | hyt
      · subst ey; exact absurd hlt (Nat.lt_irrefl _)
      · exact (List.singleton_sublist.2 hyt).cons₂ x
    · rcases List.mem_cons.1 hy with ey | hyt
      · subst ey
        exact absurd (hs.1 x hxt) (Nat.not_le.2 hlt)
      · exact (ih hs.2 hxt hyt).cons z

/-- Enumeration keeps the creation order of two keys that are not array indices. -/
theorem objectValues_named_named {α : Type} (obj : List (String × α)) (ka kb : String)
    (va vb : α) (hsub : List.Sublist [(ka, va), (kb, vb)] obj)
    (ha : arrayIndex ka = none) (hb : arrayIndex kb = none) :
    List.Sublist [va, vb] (objectValues obj) := by
  unfold objectValues
  have h1 := (hsub.filter (fun e => (arrayIndex e.1).isNone)).map Prod.snd
  have h2 : ([(ka, va), (kb, vb)].filter (fun e => (arrayIndex e.1).isNone)).map Prod.snd
      = [va, vb] := by
    simp [List.filter_cons, ha, hb]
  rw [h2] at h1
  exact h1.trans (List.sublist_append_right _ _)

/-- Enumeration lists an array-index key before any key that is not one. -/
theorem objectValues_index_named {α : Type} (obj : List (String × α)) (ka kb : String)
    (va vb : α) (n : Nat) (hma : (ka, va) ∈ obj) (hmb : (kb, vb) ∈ obj)
    (ha : arrayIndex ka = some n) (hb : arrayIndex kb = none) :
    List.Sublist [va, vb] (objectValues obj) := by
  unfold objectValues
  have h1 : va ∈ ((obj.filterMap (fun e => (arrayIndex e.1).map (fun n => (n, e.2)))).insertionSort
      (fun a b => a.1 ≤ b.1)).map Prod.snd := by
    rw [List.mem_map]
    refine ⟨(n, va), ?_, rfl⟩
    rw [(List.perm_insertionSort _ _).mem_iff, List.mem_filterMap]
    exact ⟨(ka, va), hma, by simp [ha]⟩
  have h2 : vb ∈ (obj.filter (fun e => (arrayIndex e.1).isNone)).map Prod.snd := by
    rw [List.mem_map]
    refine ⟨(kb, vb), ?_, rfl⟩
    rw [List.mem_filter]
    exact ⟨hmb, by simp [hb]⟩
  have := (List.singleton_sublist.2 h1).append (List.singleton_sublist.2 h2)
  simpa using this

/-- Enumeration lists two array-index keys in ascending numeric order. -/
theorem objectValues_index_index {α : Type} (obj : List (String × α)) (ka kb : String)
    (va vb : α) (na nb : Nat) (hma : (ka, va) ∈ obj) (hmb : (kb, vb) ∈ obj)
    (ha : arrayIndex ka = some na) (hb : arrayIndex kb = some nb) (hlt : na < nb) :
    List.Sublist [va, vb] (objectValues obj) := by
  unfold objectValues
  haveI : IsTotal (Nat × α) (fun a b => a.1 ≤ b.1) := ⟨fun a b => Nat.le_total a.1 b.1⟩
  haveI : IsTrans (Nat × α) (fun a b => a.1 ≤ b.1) := ⟨fun _ _ _ h1 h2 => Nat.le_trans h1 h2⟩
  have hs := List.sorted_insertionSort (fun (a b : Nat × α) => a.1 ≤ b.1)
    (obj.filterMap (fun e => (arrayIndex e.1).map (fun n => (n, e.2))))
  have h1 : (na, va) ∈ (obj.filterMap (fun e => (arrayIndex e.1).map (fun n => (n, e.2)))).insertionSort
      (fun a b => a.1 ≤ b.1) := by
    rw [(List.perm_insertionSort _ _).mem_iff, List.mem_filterMap]
    exact ⟨(ka, va), hma, by simp [ha]⟩
  have h2 : (nb, vb) ∈ (obj.filterMap (fun e => (arrayIndex e.1).map (fun n => (n, e.2)))).insertionSort
      (fun a b => a.1 ≤ b.1) := by
    rw [(List.perm_insertionSort _ _).mem_iff, List.mem_filterMap]
    exact ⟨(kb, vb), hmb, by simp [hb]⟩
  have h3 := (pair_sublist_of_keys_lt _ (na, va) (nb, vb) hs h1 h2 hlt).map Prod.snd
  exact h3.trans (List.sublist_append_left _ _)

/-! ## Lemmas: the platforms tally -/

theorem getOwn_setOwn_self {α : Type} (obj : List (String × α)) (k : String) (v : α) :
    getOwn (setOwn obj k v) k = some v := by
  induction obj with
  | nil => simp [setOwn, getOwn]
  | cons e es ih =>
    obtain ⟨j, w⟩ := e
    by_cases h : j = k
    · simp [setOwn, getOwn, h]
    · simp [setOwn, getOwn, h, ih]

theorem getOwn_setOwn_other {α : Type} (obj : List (String × α)) (k j : String) (v : α)
    (hjk : j ≠ k) : getOwn (setOwn obj k v) j = getOwn obj j := by
  induction obj with
  | nil =>
    have : ¬ k = j := fun e => hjk e.symm
    simp [setOwn, getOwn, this]
  | cons e es ih =>
    obtain ⟨i, w⟩ := e
    by_cases h : i = k
    · subst h
      have : ¬ i = j := fun e => hjk e.symm
      simp [setOwn, getOwn, this]
    · by_cases h2 : i = j
      · subst h2
        simp [setOwn, getOwn, h]
      · simp [setOwn, getOwn, h, h2, ih]

theorem getOwn_countPlatform_other (platforms : List (String × Tally)) (p q : String)
    (hpq : p ≠ q) : getOwn (countPlatform platforms q) p = getOwn platforms p := by
  unfold countPlatform
  split
  · exact getOwn_setOwn_other _ _ _ _ hpq
  · exact getOwn_setOwn_other _ _ _ _ hpq
  · split
    · rfl
    · exact getOwn_setOwn_other _ _ _ _ hpq
  · exact getOwn_setOwn_other _ _ _ _ hpq

theorem getOwn_countPlatform_self (platforms : List (String × Tally)) (p : String) (n : Nat)
    (hp : p ∉ objectPrototypeNames)
    (h : getOwn platforms p = if n = 0 then none else some (Tally.count n)) :
    getOwn (countPlatform platforms p) p = some (Tally.count (n + 1)) := by
  unfold countPlatform getProperty
  by_cases hn : n = 0
  · subst hn
    simp only [if_true] at h
    simp only [h, if_neg hp]
    exact getOwn_setOwn_self _ _ _
  · simp only [if_neg hn] at h
    simp only [h]
    exact getOwn_setOwn_self _ _ _

theorem getOwn_foldl_countPlatform (p : String) (hp : p ∉ objectPrototypeNames)
    (tags : List String) :
    ∀ (platforms : List (String × Tally)) (n : Nat),
      getOwn platforms p = (if n = 0 then none else some (Tally.count n)) →
      getOwn (tags.foldl countPlatform platforms) p
        = if n + tags.count p = 0 then none else some (Tally.count (n + tags.count p)) := by
  induction tags with
  | nil => intro platforms n h; simpa using h
  | cons q qs ih =>
    intro platforms n h
    rw [List.foldl_cons]
    by_cases hq : q = p
    · subst hq
      have h1 := getOwn_countPlatform_self platforms q n hp h
      have h2 := ih (countPlatform platforms q) (n + 1) (by simpa using h1)
      rw [h2, List.count_cons_self]
      have : n + 1 + List.count q qs = n + (List.count q qs + 1) := by omega
      rw [this]
    · have hpq : p ≠ q := fun e => hq e.symm
      have h1 : getOwn (countPlatform platforms q) p
          = if n = 0 then none else some (Tally.count n) := by
        rw [getOwn_countPlatform_other _ _ _ hpq]; exact h
      rw [ih (countPlatform platforms q) n h1, List.count_cons_of_ne hpq]

/-- For a platform tag that is not a member of `Object.prototype`, the summaries of
the by-clipper aggregation count the clips: `totalClips` is the number of clips of
the clipper, and `platforms` has an own entry for the tag exactly when the clipper
has a clip on it, holding the number of such clips. -/
theorem byClipper_counts_plain_tags (env : Env) (clips : List Clip) (out : List Summary)
    (h : byClipper env clips = Except.ok out) (s : Summary) (hs : s ∈ out) :
    s.totalClips = (clips.filter (fun c => decide (c.clipper = s.clipper))).length
    ∧ ∀ p : String, p ∉ objectPrototypeNames →
        getOwn s.platforms p
          = if ((clips.filter (fun c => decide (c.clipper = s.clipper))).map
                Clip.platform).count p = 0 then none
            else some (Tally.count (((clips.filter
              (fun c => decide (c.clipper = s.clipper))).map Clip.platform).count p)) := by
  have e := (byClipper_mem env clips out h s hs).2
  have f := summarize_fields s.clipper (annotate env clips)
  rw [← e] at f
  have hm : (annotate env clips).map AnnotatedClip.clip = clips :=
    annotateFrom_map_clip env clips 0
  have hfil : ((annotate env clips).filter (fun a => decide (a.clip.clipper = s.clipper))).map
      AnnotatedClip.clip = clips.filter (fun c => decide (c.clipper = s.clipper)) := by
    conv_rhs => rw [← hm]
    rw [List.filter_map]
    rfl
  constructor
  · rw [f.2.2.1, ← hfil, List.length_map]
  · intro p hp
    have hg := getOwn_foldl_countPlatform p hp
      (((annotate env clips).filter (fun a => decide (a.clip.clipper = s.clipper))).map
        (fun a => a.clip.platform)) [] 0 (by simp [getOwn])
    rw [← f.2.2.2.2.2.2.2] at hg
    have htags : ((annotate env clips).filter
          (fun a => decide (a.clip.clipper = s.clipper))).map (fun a => a.clip.platform)
        = (clips.filter (fun c => decide (c.clipper = s.clipper))).map Clip.platform := by
      rw [← hfil, List.map_map]
      rfl
    rw [htags] at hg
    simpa using hg

/-- On a clip list with no clipper named like a member of `Object.prototype`, the
by-clipper aggregation answers with exactly one summary per distinct clipper. -/
theorem byClipper_one_summary_per_plain_name (env : Env) (clips : List Clip)
    (hplain : ∀ c ∈ clips, c.clipper ∉ objectPrototypeNames) :
    ∃ out : List Summary, byClipper env clips = Except.ok out
      ∧ (out.map Summary.clipper).Nodup
      ∧ ∀ k : String, k ∈ out.map Summary.clipper ↔ k ∈ clips.map Clip.clipper := by
  refine ⟨_, byClipper_of_plain_names env clips hplain, ?_⟩
  have hp := (byClipper_perm env clips _ (byClipper_of_plain_names env clips hplain)).map
    Summary.clipper
  have hk : ((firstSeen (clips.map Clip.clipper)).map
        (fun k => summarize k (annotate env clips))).map Summary.clipper
      = firstSeen (clips.map Clip.clipper) := by
    rw [List.map_map]
    conv_rhs => rw [← List.map_id (firstSeen (clips.map Clip.clipper))]
    apply List.map_congr_left
    intro k _
    exact (summarize_fields k (annotate env clips)).1
  rw [hk] at hp
  exact ⟨hp.nodup_iff.2 (nodup_firstSeen _), fun k => (hp.mem_iff).trans mem_firstSeen⟩

/-- The adapter paths other than the missing-key path of `fetchYouTubeStats`: a
snapshot with `error` present has all four counters present and equal to 0. -/
theorem error_zeroes_elsewhere :
    (∀ (token : Option String) (graph : String → FacebookReply) (postId : String),
      ErrorMeansZeroed (fetchFacebookStats token graph postId))
    ∧ (∀ (token : Option String) (tweets : String → TwitterReply) (tweetId : String),
      ErrorMeansZeroed (fetchTwitterStats token tweets tweetId))
    ∧ (∀ (key : Option String) (videos : String → YouTubeReply) (videoId : String),
      notConfigured key = false → ErrorMeansZeroed (fetchYouTubeStats key videos videoId)) := by
  refine ⟨?_, ?_, ?_⟩
  · intro token graph postId
    unfold ErrorMeansZeroed fetchFacebookStats
    split
    · simp
    · split <;> simp
  · intro token tweets tweetId
    unfold ErrorMeansZeroed fetchTwitterStats
    split
    · simp
    · split <;> simp
  · intro key videos videoId hkey
    unfold ErrorMeansZeroed fetchYouTubeStats
    rw [hkey]
    simp only [Bool.false_eq_true, if_false]
    split <;> simp

/-! ## Lemmas: the identifier extractor -/

theorem matchLiteral_append (m r : List Char) : matchLiteral m (m ++ r) = some r := by
  induction m with
  | nil => cases r <;> rfl
  | cons c cs ih => simp [matchLiteral, ih]

theorem matchLiteral_eq_some (m : List Char) :
    ∀ s r : List Char, matchLiteral m s = some r → s = m ++ r := by
  induction m with
  | nil =>
    intro s r h
    cases s <;> simp [matchLiteral] at h <;> simp [h]
  | cons c cs ih =>
    intro s r h
    cases s with
    | nil => simp [matchLiteral] at h
    | cons d ds =>
      simp only [matchLiteral] at h
      by_cases hcd : c = d
      · rw [if_pos hcd] at h
        rw [hcd, ih ds r h]
        rfl
      · rw [if_neg hcd] at h
        cases h

theorem takeWhile_append_run (cls : Char → Bool) (id rest : List Char)
    (hcls : ∀ c ∈ id, cls c = true) (hend : ∀ c ∈ rest.head?, cls c = false) :
    (id ++ rest).takeWhile cls = id ∧ (id ++ rest).dropWhile cls = rest := by
  induction id with
  | nil =>
    cases rest with
    | nil => simp
    | cons d ds =>
      have : cls d = false := hend d (by simp)
      simp [List.takeWhile_cons, List.dropWhile_cons, this]
  | cons c cs ih =>
    have hc : cls c = true := hcls c (List.mem_cons_self _ _)
    have := ih (fun d hd => hcls d (List.mem_cons_of_mem _ hd))
    simp [List.takeWhile_cons, List.dropWhile_cons, hc, this.1, this.2]

theorem matchRun_append (cls : Char → Bool) (id rest : List Char) (hid : id ≠ [])
    (hcls : ∀ c ∈ id, cls c = true) (hend : ∀ c ∈ rest.head?, cls c = false) :
    matchRun cls (id ++ rest) = some (id, rest) := by
  unfold matchRun
  obtain ⟨h1, h2⟩ := takeWhile_append_run cls id rest hcls hend
  rw [h1, h2, if_neg hid]

theorem matchRun_eq_some (cls : Char → Bool) (s g r : List Char)
    (h : matchRun cls s = some (g, r)) :
    s = g ++ r ∧ (∀ c ∈ g, cls c = true) ∧ ∃ c t, s = c :: t ∧ cls c = true := by
  unfold matchRun at h
  by_cases he : s.takeWhile cls = []
  · rw [if_pos he] at h; cases h
  · rw [if_neg he] at h
    have hg : s.takeWhile cls = g := by
      have := congrArg Prod.fst (Option.some.inj h); exact this
    have hr : s.dropWhile cls = r := by
      have := congrArg Prod.snd (Option.some.inj h); exact this
    refine ⟨?_, ?_, ?_⟩
    · rw [← hg, ← hr, List.takeWhile_append_dropWhile]
    · intro c hc
      rw [← hg] at hc
      exact List.mem_takeWhile_imp hc
    · cases s with
      | nil => simp at he
      | cons c t =>
        refine ⟨c, t, rfl, ?_⟩
        by_contra hc
        have hc2 : cls c = false := by simpa using hc
        apply he
        simp [List.takeWhile_cons, hc2]

theorem matchTagged_append (m : List Char) (cls : Char → Bool) (id rest : List Char)
    (hid : id ≠ []) (hcls : ∀ c ∈ id, cls c = true) (hend : ∀ c ∈ rest.head?, cls c = false) :
    matchTagged m cls (m ++ (id ++ rest)) = some id := by
  unfold matchTagged
  rw [matchLiteral_append]
  simp only [matchRun_append cls id rest hid hcls hend]

theorem matchTagged_eq_some (m : List Char) (cls : Char → Bool) (s g : List Char)
    (h : matchTagged m cls s = some g) :
    g ≠ [] ∧ m.isPrefixOf s = true
      ∧ (match s.drop m.length with
          | c :: _ => cls c
          | [] => false) = true := by
  unfold matchTagged at h
  cases hl : matchLiteral m s with
  | none => rw [hl] at h; cases h
  | some r =>
    rw [hl] at h
    simp only at h
    cases hr : matchRun cls r with
    | none => rw [hr] at h; cases h
    | some gr =>
      obtain ⟨g2, r2⟩ := gr
      rw [hr] at h
      simp only [Option.some.injEq] at h
      subst h
      have hs := matchLiteral_eq_some m s r hl
      obtain ⟨hgr, _, c, t, hct, hc⟩ := matchRun_eq_some cls r g2 r2 hr
      subst hs
      refine ⟨?_, ?_, ?_⟩
      · intro hg
        subst hg
        subst hct
        simp [matchRun, List.takeWhile_cons, hc] at hr
      · simp
      · rw [List.drop_left, hct]
        exact hc

theorem matchTagged_eq_none (platform : String) (m s : List Char)
    (hm : m ∈ idMarkers platform) (hs : idStartsAt platform s = false) :
    matchTagged m (idClass platform) s = none := by
  cases h : matchTagged m (idClass platform) s with
  | none => rfl
  | some g =>
    obtain ⟨_, h1, h2⟩ := matchTagged_eq_some m (idClass platform) s g h
    have : idStartsAt platform s = true := by
      unfold idStartsAt
      rw [List.any_eq_true]
      exact ⟨m, hm, by rw [h1, h2]; rfl⟩
    rw [hs] at this
    cases this

theorem searchFrom_first {α : Type} (platform : String) (matchAt : List Char → Option α)
    (Q : α → Prop) (tail : List Char) (h0 : ∃ v, matchAt tail = some v ∧ Q v)
    (hstep : ∀ (c : Char) (pre : List Char) (v : α),
      idStartsAt platform (c :: pre ++ tail) = false → noIdBefore platform pre tail = true →
      matchAt (c :: pre ++ tail) = some v → Q v) :
    ∀ pre : List Char, noIdBefore platform pre tail = true →
      ∃ v, searchFrom matchAt (pre ++ tail) = some v ∧ Q v := by
  intro pre
  induction pre with
  | nil =>
    intro _
    obtain ⟨v, hv, hq⟩ := h0
    refine ⟨v, ?_, hq⟩
    cases tail with
    | nil => simpa [searchFrom] using hv
    | cons c cs => simp [searchFrom, hv]
  | cons c pre ih =>
    intro hno
    simp only [noIdBefore, Bool.and_eq_true, Bool.not_eq_true'] at hno
    cases hm : matchAt (c :: pre ++ tail) with
    | some v =>
      refine ⟨v, ?_, hstep c pre v hno.1 hno.2 hm⟩
      rw [List.cons_append] at hm ⊢
      rw [searchFrom, hm]
    | none =>
      obtain ⟨v, hv, hq⟩ := ih hno.2
      refine ⟨v, ?_, hq⟩
      rw [List.cons_append] at hm ⊢
      rw [searchFrom, hm]
      exact hv

theorem digits_then_id (platform : String) (tail : List Char)
    (htail : ∀ c ∈ tail.head?, Char.isDigit c = false) :
    ∀ (q page s2 : List Char), noIdBefore platform q tail = true →
      (∀ c ∈ page, Char.isDigit c = true) → q ++ tail = page ++ s2 →
      idStartsAt platform s2 = true → q = page ∧ s2 = tail := by
  intro q
  induction q with
  | nil =>
    intro page s2 _ hpage heq _
    cases page with
    | nil => exact ⟨rfl, by simpa using heq.symm⟩
    | cons d ds =>
      have h1 : Char.isDigit d = true := hpage d (List.mem_cons_self _ _)
      have h2 : Char.isDigit d = false := by
        apply htail
        simp only [List.nil_append] at heq
        rw [heq]
        simp
      rw [h1] at h2
      cases h2
  | cons c q ih =>
    intro page s2 hno hpage heq hs2
    simp only [noIdBefore, Bool.and_eq_true, Bool.not_eq_true'] at hno
    cases page with
    | nil =>
      simp only [List.nil_append] at heq
      rw [← heq, hno.1] at hs2
      cases hs2
    | cons d ds =>
      simp only [List.cons_append, List.cons.injEq] at heq
      obtain ⟨h1, h2⟩ := ih ds s2 hno.2 (fun e he => hpage e (List.mem_cons_of_mem _ he))
        heq.2 hs2
      exact ⟨by rw [heq.1, h1], h2⟩

theorem orGroup_some (id : List Char) (b : Option (List Char)) (hid : id ≠ []) :
    orGroup (some id) b = some id := by
  cases id with
  | nil => exact absurd rfl hid
  | cons c cs => rfl

theorem twitter_search (pre id rest : List Char) (hid : id ≠ [])
    (hcls : ∀ c ∈ id, Char.isDigit c = true) (hend : ∀ c ∈ rest.head?, Char.isDigit c = false)
    (hno : noIdBefore "twitter" pre ("status/".data ++ (id ++ rest)) = true) :
    searchFrom twitterAt (pre ++ ("status/".data ++ (id ++ rest))) = some id := by
  have h := searchFrom_first "twitter" twitterAt (fun v => v = id)
    ("status/".data ++ (id ++ rest))
    ⟨id, matchTagged_append _ _ id rest hid hcls hend, rfl⟩
    (by
      intro c q v hs _ hv
      have hn := matchTagged_eq_none "twitter" "status/".data (c :: q ++ _)
        (by simp [idMarkers]) hs
      have hc : idClass "twitter" = Char.isDigit := rfl
      rw [hc] at hn
      unfold twitterAt at hv
      rw [hn] at hv
      cases hv)
    pre hno
  obtain ⟨v, hv, rfl⟩ := h
  exact hv

theorem youtube_search (pre marker id rest : List Char)
    (hmarker : marker = "shorts/".data ∨ marker = "v=".data) (hid : id ≠ [])
    (hcls : ∀ c ∈ id, isIdChar c = true) (hend : ∀ c ∈ rest.head?, isIdChar c = false)
    (hno : noIdBefore "youtube" pre (marker ++ (id ++ rest)) = true) :
    ∃ m, searchFrom youtubeAt (pre ++ (marker ++ (id ++ rest))) = some m
      ∧ orGroup m.1 m.2 = some id := by
  apply searchFrom_first "youtube" youtubeAt (fun m => orGroup m.1 m.2 = some id)
    (marker ++ (id ++ rest)) _ _ pre hno
  · have ht := matchTagged_append marker isIdChar id rest hid hcls hend
    rcases hmarker with e | e
    · subst e
      refine ⟨(some id, none), ?_, orGroup_some id _ hid⟩
      unfold youtubeAt
      rw [ht]
      rfl
    · subst e
      refine ⟨(none, some id), ?_, ?_⟩
      · unfold youtubeAt
        rw [ht]
        have : matchTagged "shorts/".data isIdChar ("v=".data ++ (id ++ rest)) = none := rfl
        rw [this]
        rfl
      · rfl
  · intro c q v hs _ hv
    have hc : idClass "youtube" = isIdChar := rfl
    have h1 := matchTagged_eq_none "youtube" "shorts/".data (c :: q ++ _)
      (by simp [idMarkers]) hs
    have h2 := matchTagged_eq_none "youtube" "v=".data (c :: q ++ _)
      (by simp [idMarkers]) hs
    rw [hc] at h1 h2
    unfold youtubeAt at hv
    rw [h1, h2] at hv
    cases hv

theorem facebookAt_of_no_marker (s : List Char) (hs : idStartsAt "facebook" s = false) :
    facebookAt s = matchPageVideos s := by
  have hc : idClass "facebook" = Char.isDigit := rfl
  have h1 := matchTagged_eq_none "facebook" "/videos/".data s (by simp [idMarkers]) hs
  have h2 := matchTagged_eq_none "facebook" "/posts/".data s (by simp [idMarkers]) hs
  have h3 := matchTagged_eq_none "facebook" "story_fbid=".data s (by simp [idMarkers]) hs
  rw [hc] at h1 h2 h3
  unfold facebookAt
  rw [h1, h2, h3]
  cases matchPageVideos s <;> rfl

theorem matchPageVideos_eq_some (s : List Char) (v : FacebookMatch)
    (h : matchPageVideos s = some v) :
    ∃ page afterPage g, s = '/' :: (page ++ afterPage) ∧ (∀ c ∈ page, Char.isDigit c = true)
      ∧ matchTagged "/videos/".data Char.isDigit afterPage = some g
      ∧ v = { g1 := none, g2 := none, g3 := some page, g4 := some g, g5 := none } := by
  unfold matchPageVideos at h
  cases hl : matchLiteral ['/'] s with
  | none => rw [hl] at h; cases h
  | some afterSlash =>
    rw [hl] at h
    simp only at h
    cases hr : matchRun Char.isDigit afterSlash with
    | none => rw [hr] at h; cases h
    | some pr =>
      obtain ⟨page, afterPage⟩ := pr
      rw [hr] at h
      simp only at h
      cases ht : matchTagged "/videos/".data Char.isDigit afterPage with
      | none => rw [ht] at h; cases h
      | some g =>
        rw [ht] at h
        simp only [Option.some.injEq] at h
        obtain ⟨hsplit, hpage, _⟩ := matchRun_eq_some _ _ _ _ hr
        have hs := matchLiteral_eq_some _ _ _ hl
        refine ⟨page, afterPage, g, ?_, hpage, ht, h.symm⟩
        rw [hs, hsplit]
        rfl

theorem facebook_search (pre marker id rest : List Char)
    (hmarker : marker = "/videos/".data ∨ marker = "/posts/".data
      ∨ marker = "story_fbid=".data)
    (hid : id ≠ [])
    (hcls : ∀ c ∈ id, Char.isDigit c = true) (hend : ∀ c ∈ rest.head?, Char.isDigit c = false)
    (hno : noIdBefore "facebook" pre (marker ++ (id ++ rest)) = true) :
    ∃ m, searchFrom facebookAt (pre ++ (marker ++ (id ++ rest))) = some m
      ∧ orGroup (orGroup (orGroup m.g1 m.g2) m.g4) m.g5 = some id := by
  have ht := matchTagged_append marker Char.isDigit id rest hid hcls hend
  apply searchFrom_first "facebook" facebookAt
    (fun m => orGroup (orGroup (orGroup m.g1 m.g2) m.g4) m.g5 = some id)
    (marker ++ (id ++ rest)) _ _ pre hno
  · rcases hmarker with e | e | e
    · subst e
      refine ⟨{ g1 := some id, g2 := none, g3 := none, g4 := none, g5 := none }, ?_, ?_⟩
      · unfold facebookAt
        rw [ht]
        rfl
      · simp only [orGroup_some id _ hid]
    · subst e
      refine ⟨{ g1 := none, g2 := some id, g3 := none, g4 := none, g5 := none }, ?_, ?_⟩
      · unfold facebookAt
        rw [ht]
        have : matchTagged "/videos/".data Char.isDigit ("/posts/".data ++ (id ++ rest))
            = none := rfl
        rw [this]
        rfl
      · show orGroup (orGroup (orGroup none (some id)) none) none = some id
        have : orGroup none (some id) = some id := rfl
        rw [this]
        simp only [orGroup_some id _ hid]
    · subst e
      refine ⟨{ g1 := none, g2 := none, g3 := none, g4 := none, g5 := some id }, ?_, rfl⟩
      unfold facebookAt
      rw [ht]
      have h1 : matchTagged "/videos/".data Char.isDigit ("story_fbid=".data ++ (id ++ rest))
          = none := rfl
      have h2 : matchTagged "/posts/".data Char.isDigit ("story_fbid=".data ++ (id ++ rest))
          = none := rfl
      have h3 : matchPageVideos ("story_fbid=".data ++ (id ++ rest)) = none := rfl
      rw [h1, h2, h3]
      rfl
  · intro c q v hs hq hv
    rw [facebookAt_of_no_marker _ hs] at hv
    obtain ⟨page, afterPage, g, hsplit, hpage, hg, hv2⟩ := matchPageVideos_eq_some _ v hv
    rw [List.cons_append] at hsplit
    have hqp : q ++ (marker ++ (id ++ rest)) = page ++ afterPage := (List.cons.inj hsplit).2
    obtain ⟨_, hg1, hg2⟩ := matchTagged_eq_some _ _ _ _ hg
    have hstart : idStartsAt "facebook" afterPage = true := by
      unfold idStartsAt
      rw [List.any_eq_true]
      exact ⟨"/videos/".data, by simp [idMarkers], by
        have hc : idClass "facebook" = Char.isDigit := rfl
        rw [hc, hg1, hg2]; rfl⟩
    have htail : ∀ d ∈ (marker ++ (id ++ rest)).head?, Char.isDigit d = false := by
      intro d hd
      rcases hmarker with e | e | e
      · subst e
        have hh : ("/videos/".data ++ (id ++ rest)).head? = some '/' := rfl
        rw [hh] at hd
        cases hd
        decide
      · subst e
        have hh : ("/posts/".data ++ (id ++ rest)).head? = some '/' := rfl
        rw [hh] at hd
        cases hd
        decide
      · subst e
        have hh : ("story_fbid=".data ++ (id ++ rest)).head? = some 's' := rfl
        rw [hh] at hd
        cases hd
        decide
    obtain ⟨_, hafter⟩ := digits_then_id "facebook" _ htail q page afterPage hq hpage hqp hstart
    rw [hafter] at hg
    have hgid : g = id := by
      rcases hmarker with e | e | e
      · subst e
        rw [ht] at hg
        exact (Option.some.inj hg).symm
      · subst e
        have : matchTagged "/videos/".data Char.isDigit ("/posts/".data ++ (id ++ rest))
            = none := rfl
        rw [this] at hg
        cases hg
      · subst e
        have : matchTagged "/videos/".data Char.isDigit ("story_fbid=".data ++ (id ++ rest))
            = none := rfl
        rw [this] at hg
        cases hg
    subst hgid
    rw [hv2]
    show orGroup (orGroup (orGroup none none) (some g)) none = some g
    have : orGroup (orGroup none none) (some g) = some g := rfl
    rw [this]
    exact orGroup_some g _ hid

/-! ## Settled claims -/

/-- C1, counterexample: two clips of one clipper with `2 ^ 53` views and 1 view are
totalled to `2 ^ 53`, while the sum of their views is `2 ^ 53 + 1`. -/
theorem totals_round_above_exact_range :
    byClipper largeCountEnv largeCountClips = Except.ok [largeCountSummary]
    ∧ largeCountSummary.totalViews = 9007199254740992
    ∧ (((annotate largeCountEnv largeCountClips).filter
          (fun a => decide (a.clip.clipper = largeCountSummary.clipper))).map
          (fun a => orZero a.stats.views)).sum = 9007199254740993
    ∧ ¬ TotalsAreExactSums largeCountEnv largeCountClips := by
  refine ⟨rfl, rfl, rfl, ?_⟩
  intro h
  have h1 := (h [largeCountSummary] rfl largeCountSummary (List.mem_singleton.2 rfl)).1
  revert h1
  decide

/-- C1, as amended: every summary of the by-clipper aggregation has `totalViews`
equal to the sum of `stats.views`, an absent field counting as 0, over exactly the
clips of the input whose clipper is the summary's clipper, provided that sum is at
most `2 ^ 53`; likewise `totalLikes`, `totalComments` and `totalShares`, each under
the same bound on its own sum. -/
theorem byClipper_totals_additive (env : Env) (clips : List Clip) (out : List Summary)
    (h : byClipper env clips = Except.ok out) (s : Summary) (hs : s ∈ out) :
    ((((annotate env clips).filter (fun a => decide (a.clip.clipper = s.clipper))).map
          (fun a => orZero a.stats.views)).sum ≤ exactLimit →
      s.totalViews
        = (((annotate env clips).filter (fun a => decide (a.clip.clipper = s.clipper))).map
            (fun a => orZero a.stats.views)).sum)
    ∧ ((((annotate env clips).filter (fun a => decide (a.clip.clipper = s.clipper))).map
          (fun a => orZero a.stats.likes)).sum ≤ exactLimit →
      s.totalLikes
        = (((annotate env clips).filter (fun a => decide (a.clip.clipper = s.clipper))).map
            (fun a => orZero a.stats.likes)).sum)
    ∧ ((((annotate env clips).filter (fun a => decide (a.clip.clipper = s.clipper))).map
          (fun a => orZero a.stats.comments)).sum ≤ exactLimit →
      s.totalComments
        = (((annotate env clips).filter (fun a => decide (a.clip.clipper = s.clipper))).map
            (fun a => orZero a.stats.comments)).sum)
    ∧ ((((annotate env clips).filter (fun a => decide (a.clip.clipper = s.clipper))).map
          (fun a => orZero a.stats.shares)).sum ≤ exactLimit →
      s.totalShares
        = (((annotate env clips).filter (fun a => decide (a.clip.clipper = s.clipper))).map
            (fun a => orZero a.stats.shares)).sum) := by
  have e := (byClipper_mem env clips out h s hs).2
  have f := summarize_fields s.clipper (annotate env clips)
  rw [← e] at f
  refine ⟨?_, ?_, ?_, ?_⟩
  · intro hb
    rw [f.2.2.2.1, foldl_jsAdd_exact _ 0 (by rw [Nat.zero_add]; exact hb), Nat.zero_add]
  · intro hb
    rw [f.2.2.2.2.1, foldl_jsAdd_exact _ 0 (by rw [Nat.zero_add]; exact hb), Nat.zero_add]
  · intro hb
    rw [f.2.2.2.2.2.1, foldl_jsAdd_exact _ 0 (by rw [Nat.zero_add]; exact hb), Nat.zero_add]
  · intro hb
    rw [f.2.2.2.2.2.2.1, foldl_jsAdd_exact _ 0 (by rw [Nat.zero_add]; exact hb), Nat.zero_add]

/-- Witness of C1 as amended: in the ranking scenario the summary of A totals the
100 views of the one clip of A. -/
theorem byClipper_totals_additive_witness :
    byClipper scenarioEnv scenarioClips = Except.ok [scenarioSummaryA, scenarioSummaryB]
    ∧ scenarioSummaryA.totalViews
        = (((annotate scenarioEnv scenarioClips).filter
            (fun a => decide (a.clip.clipper = scenarioSummaryA.clipper))).map
            (fun a => orZero a.stats.views)).sum :=
  ⟨rfl, (byClipper_totals_additive scenarioEnv scenarioClips
    [scenarioSummaryA, scenarioSummaryB] rfl scenarioSummaryA (List.mem_cons_self _ _)).1
    (by decide)⟩

/-- C2: the summaries of the by-clipper aggregation are sorted by `totalViews` in
non-increasing order: of two adjacent summaries the earlier has at least the
`totalViews` of the later, and so has any earlier one of any later one. -/
theorem byClipper_sorted (env : Env) (clips : List Clip) (out : List Summary)
    (h : byClipper env clips = Except.ok out) :
    out.Chain' (fun a b => b.totalViews ≤ a.totalViews)
    ∧ out.Pairwise (fun a b => b.totalViews ≤ a.totalViews) := by
  obtain ⟨_, hout⟩ := byClipper_ok env clips out h
  haveI : IsTotal Summary (fun a b => b.totalViews ≤ a.totalViews) :=
    ⟨fun a b => Nat.le_total b.totalViews a.totalViews⟩
  haveI : IsTrans Summary (fun a b => b.totalViews ≤ a.totalViews) :=
    ⟨fun _ _ _ hab hbc => Nat.le_trans hbc hab⟩
  have hs : out.Pairwise (fun a b => b.totalViews ≤ a.totalViews) := by
    rw [hout]
    exact List.sorted_insertionSort _ _
  exact ⟨hs.chain', hs⟩

/-- Witness of C2: clipper A with 100 views is ranked before clipper B with 50. -/
theorem byClipper_sorted_witness :
    byClipper scenarioEnv scenarioClips = Except.ok [scenarioSummaryA, scenarioSummaryB]
    ∧ [scenarioSummaryA, scenarioSummaryB].Chain' (fun a b => b.totalViews ≤ a.totalViews) :=
  ⟨rfl, (byClipper_sorted scenarioEnv scenarioClips [scenarioSummaryA, scenarioSummaryB] rfl).1⟩

/-- C8: the refresh pass returns a list of the length of its input whose element
at each position is the input clip at that position with the snapshot fetched for
it, whatever the adapters report: order is kept, no clip is dropped or duplicated. -/
theorem refresh_preserves_order (env : Env) (clips : List Clip) :
    (refresh env clips).length = clips.length
    ∧ (refresh env clips).map AnnotatedClip.clip = clips
    ∧ ∀ i : Nat, (refresh env clips)[i]?
        = (clips[i]?).map (fun c => { clip := c, stats := (clipStats env i c).1 }) := by
  rw [refresh_eq_annotate]
  unfold annotate
  have hm := annotateFrom_map_clip env clips 0
  refine ⟨?_, hm, ?_⟩
  · have := congrArg List.length hm
    simpa using this
  · intro i
    rw [annotateFrom_getElem?, Nat.zero_add]

/-- C10: the `clips` of every summary of the by-clipper aggregation is exactly the
subsequence of the input made of the clips of that clipper, in input order, each
paired with the snapshot fetched for it; the clips of all summaries together are
a permutation of the annotated input. -/
theorem byClipper_clips_in_input_order (env : Env) (clips : List Clip) (out : List Summary)
    (h : byClipper env clips = Except.ok out) :
    (∀ s ∈ out,
      s.clips = (annotate env clips).filter (fun a => decide (a.clip.clipper = s.clipper))
      ∧ s.clips.map AnnotatedClip.clip = clips.filter (fun c => decide (c.clipper = s.clipper))
      ∧ List.Sublist s.clips (annotate env clips))
    ∧ ((out.map Summary.clips).flatten).Perm (annotate env clips) := by
  constructor
  · intro s hs
    have e := (byClipper_mem env clips out h s hs).2
    have f := (summarize_fields s.clipper (annotate env clips)).2.1
    rw [← e] at f
    refine ⟨f, ?_, ?_⟩
    · rw [f]
      have hm : (annotate env clips).map AnnotatedClip.clip = clips :=
        annotateFrom_map_clip env clips 0
      conv_rhs => rw [← hm]
      rw [List.filter_map]
      rfl
    · rw [f]
      exact List.filter_sublist _
  · have hp := ((byClipper_perm env clips out h).map Summary.clips).flatten
    refine hp.trans ?_
    rw [List.map_map]
    have hc : (firstSeen (clips.map Clip.clipper)).map
          (Summary.clips ∘ fun k => summarize k (annotate env clips))
        = (firstSeen (clips.map Clip.clipper)).map
          (fun k => (annotate env clips).filter (fun a => decide (a.clip.clipper = k))) := by
      apply List.map_congr_left
      intro k _
      exact (summarize_fields k (annotate env clips)).2.1
    rw [hc]
    apply flatten_filter_perm _ _ (nodup_firstSeen _)
    intro a ha
    rw [mem_firstSeen, ← annotateFrom_map_clipper env clips 0]
    exact List.mem_map.2 ⟨a, ha, rfl⟩

/-- Witness of C10: in the ranking scenario each summary lists its clipper's one
clip and the two lists together permute the annotated input. -/
theorem byClipper_clips_in_input_order_witness :
    byClipper scenarioEnv scenarioClips = Except.ok [scenarioSummaryA, scenarioSummaryB]
    ∧ (([scenarioSummaryA, scenarioSummaryB].map Summary.clips).flatten).Perm
        (annotate scenarioEnv scenarioClips) :=
  ⟨rfl, (byClipper_clips_in_input_order scenarioEnv scenarioClips
    [scenarioSummaryA, scenarioSummaryB] rfl).2⟩

/-- C3, counterexample: clippers `10` and `2`, seen in that order with equal
totals, are answered in the order `2`, `10`. -/
theorem ties_numeric_names_reordered :
    byClipper scenarioEnv numericNameClips
        = Except.ok [idlessSummary "2", idlessSummary "10"]
    ∧ ¬ TiesKeepFirstSeenOrder scenarioEnv numericNameClips := by
  refine ⟨rfl, ?_⟩
  intro h
  have hsub := h [idlessSummary "2", idlessSummary "10"] rfl
    (idlessSummary "10") (by simp) (idlessSummary "2") (by simp)
    (by decide) rfl (by decide)
  have hnames := hsub.map Summary.clipper
  revert hnames
  decide

/-- C3, as amended: of two summaries with the same `totalViews` in the answer of
the by-clipper aggregation, (1) when neither clipper name is an array index, the one
whose clipper appears first in the input comes first; (2) one whose clipper name is
an array index comes before one whose clipper name is not; (3) when both names are
array indices, the one with the smaller index comes first. -/
theorem byClipper_ties_follow_enumeration (env : Env) (clips : List Clip)
    (out : List Summary) (h : byClipper env clips = Except.ok out)
    (sa sb : Summary) (hsa : sa ∈ out) (hsb : sb ∈ out)
    (htie : sa.totalViews = sb.totalViews) :
    (arrayIndex sa.clipper = none → arrayIndex sb.clipper = none →
      List.indexOf sa.clipper (clips.map Clip.clipper)
        < List.indexOf sb.clipper (clips.map Clip.clipper) →
      List.Sublist [sa, sb] out)
    ∧ (arrayIndex sa.clipper ≠ none → arrayIndex sb.clipper = none →
      List.Sublist [sa, sb] out)
    ∧ (∀ na nb : Nat, arrayIndex sa.clipper = some na → arrayIndex sb.clipper = some nb →
      na < nb → List.Sublist [sa, sb] out) := by
  obtain ⟨_, hout⟩ := byClipper_ok env clips out h
  obtain ⟨hka, ea⟩ := byClipper_mem env clips out h sa hsa
  obtain ⟨hkb, eb⟩ := byClipper_mem env clips out h sb hsb
  have hnames : (annotate env clips).map (fun a => a.clip.clipper) = clips.map Clip.clipper :=
    annotateFrom_map_clipper env clips 0
  have hta : (sa.clipper, sa) ∈ table (annotate env clips) := by
    unfold table
    rw [hnames, List.mem_map]
    exact ⟨sa.clipper, mem_firstSeen.2 hka, by rw [← ea]⟩
  have htb : (sb.clipper, sb) ∈ table (annotate env clips) := by
    unfold table
    rw [hnames, List.mem_map]
    exact ⟨sb.clipper, mem_firstSeen.2 hkb, by rw [← eb]⟩
  have hstable : List.Sublist [sa, sb] (objectValues (table (annotate env clips))) →
      List.Sublist [sa, sb] out := by
    intro hs
    rw [hout]
    exact List.pair_sublist_insertionSort (r := fun a b => b.totalViews ≤ a.totalViews)
      (Nat.le_of_eq htie.symm) hs
  refine ⟨?_, ?_, ?_⟩
  · intro ha hb hlt
    apply hstable
    apply objectValues_named_named _ sa.clipper sb.clipper sa sb _ ha hb
    have hp := (pair_sublist_firstSeen _ _ _ hlt hkb).map
      (fun k => (k, summarize k (annotate env clips)))
    unfold table
    rw [hnames]
    simpa [← ea, ← eb] using hp
  · intro ha hb
    apply hstable
    obtain ⟨n, hn⟩ := Option.ne_none_iff_exists'.1 ha
    exact objectValues_index_named _ sa.clipper sb.clipper sa sb n hta htb hn hb
  · intro na nb ha hb hlt
    apply hstable
    exact objectValues_index_index _ sa.clipper sb.clipper sa sb na nb hta htb ha hb hlt

/-- Witness of C3 as amended: bob and amy tie at 0 views and keep their input
order; `2` and `10` tie at 0 views and come in ascending numeric order. -/
theorem byClipper_ties_follow_enumeration_witness :
    List.Sublist [idlessSummary "bob", idlessSummary "amy"]
      [idlessSummary "bob", idlessSummary "amy"]
    ∧ List.Sublist [idlessSummary "2", idlessSummary "10"]
      [idlessSummary "2", idlessSummary "10"] :=
  ⟨(byClipper_ties_follow_enumeration scenarioEnv plainNameClips
      [idlessSummary "bob", idlessSummary "amy"] rfl (idlessSummary "bob")
      (idlessSummary "amy") (by simp) (by simp) rfl).1 (by decide) (by decide) (by decide),
   (byClipper_ties_follow_enumeration scenarioEnv numericNameClips
      [idlessSummary "2", idlessSummary "10"] rfl (idlessSummary "2")
      (idlessSummary "10") (by simp) (by simp) rfl).2.2 2 10 (by decide) (by decide)
      (by decide)⟩

/-- C4, failing input: a clip list with a clipper named `constructor`, or named
`__proto__`, gets no summary at all: the request ends in the `catch`. -/
theorem byClipper_inherited_name_fails :
    byClipper scenarioEnv [clipOf "constructor" "youtube" (some "v1")]
        = Except.error Failure.typeError
    ∧ byClipper scenarioEnv [clipOf "A" "youtube" (some "v1"), clipOf "__proto__" "youtube" none]
        = Except.error Failure.typeError :=
  ⟨rfl, rfl⟩

/-- C5, failing input: without an API key `fetchYouTubeStats` returns a snapshot
with `error` present and no `shares` field. -/
theorem fetchYouTubeStats_missing_key_omits_shares :
    fetchYouTubeStats none (scenarioEnv.videos 0) "v1"
        = { views := some 0, likes := some 0, comments := some 0, shares := none,
            error := some "YouTube API key not configured" }
    ∧ ¬ ErrorMeansZeroed (fetchYouTubeStats none (scenarioEnv.videos 0) "v1") := by
  refine ⟨rfl, ?_⟩
  intro h
  have := (h (by decide)).2.2.2
  revert this
  decide

/-- C9, failing input: a clip whose platform tag is `constructor` leaves in
`platforms` a text under that tag instead of the count 1, and a clip whose platform
tag is `__proto__` leaves no entry. -/
theorem byClipper_inherited_tag_not_counted :
    byClipper scenarioEnv [clipOf "bob" "constructor" none]
        = Except.ok [oneClipSummary "bob" "constructor"
            [("constructor", Tally.text "function Object() \x7b [native code] \x7d1")]]
    ∧ byClipper scenarioEnv [clipOf "bob" "__proto__" none]
        = Except.ok [oneClipSummary "bob" "__proto__" []] :=
  ⟨rfl, rfl⟩

/-- C6, counterexample: the snapshot attached to a clip without identifier, by
the refresh pass and by the by-clipper aggregation, is the empty object: its
`views` field is absent, not 0. -/
theorem skipped_clip_counters_absent :
    refresh scenarioEnv [clipOf "A" "youtube" none]
        = [{ clip := clipOf "A" "youtube" none, stats := emptyStats }]
    ∧ byClipper scenarioEnv [clipOf "A" "youtube" none] = Except.ok [idlessSummary "A"]
    ∧ (idlessSummary "A").clips = [{ clip := clipOf "A" "youtube" none, stats := emptyStats }]
    ∧ ¬ (∀ a ∈ refresh scenarioEnv [clipOf "A" "youtube" none], ZeroedWithoutError a.stats) := by
  refine ⟨rfl, rfl, rfl, ?_⟩
  intro h
  have h1 := (h { clip := clipOf "A" "youtube" none, stats := emptyStats }
    (List.mem_singleton.2 rfl)).1
  revert h1
  decide

/-- C6, as amended: for a clip whose `videoId` is absent or empty, or whose platform
has no adapter, no adapter is invoked and the snapshot attached to it, by the
refresh pass and by the by-clipper aggregation, is the empty object: it has no
`error` field and no counter field, and each counter reads as 0 under `|| 0`. -/
theorem skipped_clip_gets_empty_snapshot (env : Env) (clips : List Clip) (i : Nat)
    (clip : Clip) (hi : clips[i]? = some clip)
    (hskip : truthy clip.videoId = false
      ∨ (clip.platform ≠ "facebook" ∧ clip.platform ≠ "youtube" ∧ clip.platform ≠ "twitter")) :
    (clipStats env i clip).2 = []
    ∧ (refresh env clips)[i]? = some { clip := clip, stats := emptyStats }
    ∧ (∀ out : List Summary, byClipper env clips = Except.ok out →
        (annotate env clips)[i]? = some { clip := clip, stats := emptyStats }
        ∧ ∃ s ∈ out, s.clipper = clip.clipper
            ∧ { clip := clip, stats := emptyStats } ∈ s.clips)
    ∧ emptyStats.error = none
    ∧ emptyStats.views = none ∧ emptyStats.likes = none
    ∧ emptyStats.comments = none ∧ emptyStats.shares = none
    ∧ orZero emptyStats.views = 0 ∧ orZero emptyStats.likes = 0
    ∧ orZero emptyStats.comments = 0 ∧ orZero emptyStats.shares = 0 := by
  have hstats : clipStats env i clip = (emptyStats, []) := by
    unfold clipStats
    rcases hskip with h | ⟨h1, h2, h3⟩
    · simp [h]
    · simp [h1, h2, h3]
  have hann : (annotate env clips)[i]? = some { clip := clip, stats := emptyStats } := by
    unfold annotate
    rw [annotateFrom_getElem?, hi, Nat.zero_add, Option.map_some', hstats]
  refine ⟨by rw [hstats], ?_, ?_, rfl, rfl, rfl, rfl, rfl, rfl, rfl, rfl, rfl⟩
  · rw [refresh_eq_annotate]; exact hann
  · intro out h
    refine ⟨hann, ?_⟩
    have hmem : ({ clip := clip, stats := emptyStats } : AnnotatedClip) ∈ annotate env clips :=
      List.getElem?_mem hann
    have hk : clip.clipper ∈ firstSeen (clips.map Clip.clipper) := by
      rw [mem_firstSeen]
      exact List.mem_map.2 ⟨clip, List.getElem?_mem hi, rfl⟩
    have hs : summarize clip.clipper (annotate env clips) ∈ out :=
      (byClipper_perm env clips out h).mem_iff.2 (List.mem_map.2 ⟨_, hk, rfl⟩)
    refine ⟨_, hs, (summarize_fields _ _).1, ?_⟩
    rw [(summarize_fields _ _).2.1, List.mem_filter]
    exact ⟨hmem, by simp⟩

/-- Witness of C6 as amended: the second clip of the list, without identifier. -/
theorem skipped_clip_gets_empty_snapshot_witness :
    (clipStats scenarioEnv 1 (clipOf "B" "youtube" none)).2 = []
    ∧ (refresh scenarioEnv [clipOf "A" "youtube" (some "v1"), clipOf "B" "youtube" none])[1]?
        = some { clip := clipOf "B" "youtube" none, stats := emptyStats } :=
  ⟨(skipped_clip_gets_empty_snapshot scenarioEnv
      [clipOf "A" "youtube" (some "v1"), clipOf "B" "youtube" none] 1
      (clipOf "B" "youtube" none) rfl (Or.inl rfl)).1,
   (skipped_clip_gets_empty_snapshot scenarioEnv
      [clipOf "A" "youtube" (some "v1"), clipOf "B" "youtube" none] 1
      (clipOf "B" "youtube" none) rfl (Or.inl rfl)).2.1⟩

/-- C7, counterexample: on a YouTube URL with the parameter `dev=1` before
`v=dQw4w9WgXcQ` the function returns `1`, the identifier of the leftmost occurrence of
`v=`; on a Facebook URL whose post identifier is not numeric it returns `null`, and
of an identifier that starts with digits it returns the digits only. -/
theorem extractVideoId_not_every_occurrence :
    extractVideoId "https://www.youtube.com/watch?dev=1&v=dQw4w9WgXcQ" "youtube" = some "1"
    ∧ ¬ ReturnsIdOfEveryOccurrence "youtube"
        "https://www.youtube.com/watch?dev=1&v=dQw4w9WgXcQ".data
    ∧ extractVideoId "https://www.facebook.com/page/posts/pfbid02Zx9kQ" "facebook" = none
    ∧ extractVideoId "https://www.facebook.com/page/posts/123abc" "facebook" = some "123" := by
  refine ⟨by decide, ?_, by decide, by decide⟩
  intro h
  have h1 := h "https://www.youtube.com/watch?dev=1&".data "v=".data "dQw4w9WgXcQ".data []
    (by decide) (by decide) (by decide) (by decide) (by simp)
  revert h1
  decide

/-- C7, as amended: for each of the three platforms, on a URL in which the leftmost
position where a marker of the platform (Facebook `/videos/`, `/posts/`,
`story_fbid=`; YouTube `shorts/`, `v=`; Twitter `status/`) is followed by an
identifier character (a decimal digit for Facebook and Twitter, a character of
`[a-zA-Z0-9_-]` for YouTube) is the start of `marker ++ id`, with `id` the whole run
of identifier characters there, `extractVideoId` returns exactly `id`; after
`/pageId/videos/` it is the trailing identifier and not the page identifier. -/
theorem extractVideoId_documented (platform : String) (pre marker id rest : List Char)
    (hmarker : marker ∈ idMarkers platform) (hid : id ≠ [])
    (hcls : ∀ c ∈ id, idClass platform c = true)
    (hend : ∀ c ∈ rest.head?, idClass platform c = false)
    (hfirst : noIdBefore platform pre (marker ++ id ++ rest) = true) :
    extractVideoId (String.mk (pre ++ marker ++ id ++ rest)) platform = some (String.mk id)
    ∧ ∀ pageId : List Char, pageId ≠ id →
        extractVideoId (String.mk (pre ++ marker ++ id ++ rest)) platform
          ≠ some (String.mk pageId) := by
  have hmain : extractVideoId (String.mk (pre ++ marker ++ id ++ rest)) platform
      = some (String.mk id) := by
    have e1 : pre ++ marker ++ id ++ rest = pre ++ (marker ++ (id ++ rest)) := by
      simp [List.append_assoc]
    have e2 : marker ++ id ++ rest = marker ++ (id ++ rest) := by simp [List.append_assoc]
    rw [e2] at hfirst
    rw [e1]
    unfold idMarkers at hmarker
    unfold extractVideoId
    by_cases hf : platform = "facebook"
    · subst hf
      have hc : idClass "facebook" = Char.isDigit := rfl
      rw [hc] at hcls hend
      simp only [if_true, List.mem_cons, List.mem_singleton, List.not_mem_nil,
        or_false] at hmarker
      obtain ⟨m, hm, hq⟩ := facebook_search pre marker id rest hmarker hid hcls hend hfirst
      simp only [if_true, hm, hq, Option.map_some']
    · by_cases hy : platform = "youtube"
      · subst hy
        have hc : idClass "youtube" = isIdChar := rfl
        rw [hc] at hcls hend
        rw [if_neg hf] at hmarker
        simp only [if_true, List.mem_cons, List.mem_singleton, List.not_mem_nil,
          or_false] at hmarker
        obtain ⟨m, hm, hq⟩ := youtube_search pre marker id rest hmarker hid hcls hend hfirst
        simp only [if_neg hf, if_true, hm, hq, Option.map_some']
      · by_cases ht : platform = "twitter"
        · subst ht
          have hc : idClass "twitter" = Char.isDigit := rfl
          rw [hc] at hcls hend
          rw [if_neg hf, if_neg hy] at hmarker
          simp only [if_true, List.mem_singleton] at hmarker
          subst hmarker
          have hm := twitter_search pre id rest hid hcls hend hfirst
          simp only [if_neg hf, if_neg hy, if_true, hm]
        · rw [if_neg hf, if_neg hy, if_neg ht] at hmarker
          cases hmarker
  refine ⟨hmain, ?_⟩
  intro pageId hne
  rw [hmain]
  intro e
  apply hne
  have := Option.some.inj e
  exact (congrArg String.data this).symm

/-- Witness of C7 as amended: the Twitter example of the specification, and a Facebook URL
with a page identifier before `/videos/`. -/
theorem extractVideoId_documented_witness :
    extractVideoId "https://x.com/user/status/12345" "twitter" = some "12345"
    ∧ extractVideoId "https://www.facebook.com/100/videos/67890/?t=1" "facebook"
        = some "67890" :=
  ⟨(extractVideoId_documented "twitter" "https://x.com/user/".data "status/".data
      "12345".data [] (by decide) (by decide) (by decide) (by simp) (by decide)).1,
   (extractVideoId_documented "facebook" "https://www.facebook.com/100".data "/videos/".data
      "67890".data "/?t=1".data (by decide) (by decide) (by decide) (by decide)
      (by decide)).1⟩

end ClippingAnalytics
